import Mathlib

/-!
Verification of the consensus core of the Benhgift/bitcoin node against its
specification.  The definitions below are a shallow embedding of the C++
source (`src/chain.cpp`, `src/interpreter.cpp`, the transaction code and the
headers): byte buffers become `List Nat` (one entry per byte, little-endian
stream order), machine integers become `Nat`/`Int` with explicit reductions
modulo `2 ^ w` where the source relies on wrap-around, stateful methods
become functions from a state record to a state record, and fallible
operations return `Option`.  Functions whose bodies live outside the
extracted sources (the ArcMist `Hash`/`Buffer` library, `interpreter.hpp`,
`forks.cpp`, …) are modelled from the specification and carry a doc comment
starting with `Modelled from the spec:`.
-/

namespace BitcoinChain

/-! ## Byte-level helpers

A buffer is a `List Nat` of bytes in stream order.  For the script
arithmetic encoding the stream order is little-endian: the first byte of
the buffer is the least significant byte of the magnitude.
-/

/-- `ScriptInterpreter::bufferIsZero` (interpreter.cpp:22): every byte of the
buffer is zero (an empty buffer counts as zero). -/
def bufferIsZero (bs : List Nat) : Bool :=
  bs.all fun b => b = 0

/-! ## Script arithmetic encoding (claim C6)

`ScriptInterpreter::arithmeticWrite` (interpreter.cpp:966) copies the
magnitude of the 64-bit value into an 8-byte big-endian array, skips the
leading zero bytes (`startOffset`), folds the sign into the top bit of the
most significant byte (prepending a pure sign byte when that bit is already
occupied), and then writes the surviving bytes to the buffer in
little-endian order.  The big-endian array with its leading zeros skipped
is exactly the reverse of `Nat.digits 256` of the magnitude, so the
embedding manipulates the little-endian digit list directly; each branch
below corresponds to one branch of the source. -/
def arithmeticWrite (v : Int) : List Nat :=
  -- int64 magnitude bytes as seen by the memcpy (for INT64_MIN the negation
  -- wraps back to 2^63, which `natAbs % 2^64` reproduces)
  let value : Nat := v.natAbs % 2 ^ 64
  let bytes : List Nat := Nat.digits 256 value
  if bytes.isEmpty then
    -- startOffset == 8: all bytes zero
    (if v < 0 then [128] else [])
  else
    let top : Nat := bytes.getLastD 0
    if v < 0 then
      if 128 ≤ top then
        -- top bit already set: prepend a 0x80 sign byte, unless the
        -- magnitude already fills all eight bytes (startOffset == 0), in
        -- which case the source logs and leaves the buffer empty
        (if bytes.length = 8 then [] else bytes ++ [128])
      else bytes.dropLast ++ [top ||| 128]
    else
      if 128 ≤ top then
        -- prepend a 0x00 byte to keep the value positive
        (if bytes.length = 8 then [] else bytes ++ [0])
      else bytes

/-- `ScriptInterpreter::arithmeticRead` (interpreter.cpp:871).  The source
copies the (little-endian) buffer into an 8-byte big-endian array; the most
significant byte is the last byte of the buffer.  A buffer longer than 8
bytes is rejected, the empty buffer reads as 0.  A most significant byte
equal to `0x80` (negative) or `0x00` (non-negative) is dropped, after which
at most 5 original bytes are allowed; otherwise at most 4 bytes are allowed
and the top bit is cleared from the most significant byte.  The remaining
bytes are the little-endian magnitude; the sign is applied afterwards. -/
def arithmeticRead (bs : List Nat) : Option Int :=
  if 8 < bs.length then none
  else if bs.length = 0 then some 0
  else
    let top : Nat := bs.getLastD 0
    -- `negative` is the top bit of the most significant byte: `128 ≤ top`
    if (128 ≤ top ∧ top = 128) ∨ (¬128 ≤ top ∧ top = 0) then
      -- dropFirstByte: the most significant byte carried only the sign
      if 5 < bs.length then none
      else
        let mag : Nat := Nat.ofDigits 256 bs.dropLast
        some (if 128 ≤ top then -(mag : Int) else (mag : Int))
    else
      if 4 < bs.length then none
      else
        let mag : Nat :=
          Nat.ofDigits 256 (bs.dropLast ++ [if 128 ≤ top then top - 128 else top])
        some (if 128 ≤ top then -(mag : Int) else (mag : Int))

/-- Modelled from the spec: "Numbers are serialised little-endian with the
most-significant bit of the last byte as the sign bit, with a prepended
zero byte if needed to disambiguate sign; zero is the empty byte string.
The encoder strips unnecessary leading zeros."  `Nat.digits 256` is the
shortest little-endian byte representation of the magnitude; the sign bit
occupies the top bit of the final byte, with an extra sign byte exactly
when that bit is needed by the magnitude itself. -/
def shortestSignMagnitudeLE (v : Int) : List Nat :=
  if v = 0 then []
  else
    let m : List Nat := Nat.digits 256 v.natAbs
    if 128 ≤ m.getLastD 0 then m ++ [if v < 0 then 128 else 0]
    else m.dropLast ++ [if v < 0 then m.getLastD 0 + 128 else m.getLastD 0]

/-! ## `Chain::getBlockHashes` (claim C10) -/

/-- The collection loop of `Chain::getBlockHashes` (chain.cpp:1378): starting
at index `i` it pushes `mBlockHashes[hashHeight]` and increments, until
`pCount` hashes have been collected, with no bounds check against the array
length.  An access past the end of the array (undefined behaviour in the
source) is modelled as `none`. -/
def collectHashes (hashes : List Nat) : Nat → Nat → Option (List Nat)
  | _, 0 => some []
  | i, c + 1 =>
    match hashes.get? i with
    | none => none
    | some x => (collectHashes hashes (i + 1) c).map fun t => x :: t

/-- `Chain::getBlockHashes` (chain.cpp:1364): resolve the starting hash to
its height via the hash-to-height lookup (first occurrence); when the hash
is unknown the source returns `false` without touching the array, modelled
as `some []`. -/
def getBlockHashes (hashes : List Nat) (startHash : Nat) (count : Nat) :
    Option (List Nat) :=
  match hashes.findIdx? (fun x => x = startHash) with
  | none => some []
  | some h => collectHashes hashes h count

/-! ## `ScriptInterpreter::parseOutputScript` (claim C7) -/

/-- `ScriptInterpreter::ScriptType` (interpreter.hpp, values taken from the
uses in the sources). -/
inductive ScriptType where
  | P2PKH
  | P2SH
  | P2PK
  | MULTI_SIG
  | NULL_DATA
  | NON_STANDARD
  deriving DecidableEq, Repr

/-- `ScriptInterpreter::isSmallInteger` (interpreter.cpp:45):
`OP_0` or `OP_1 … OP_16` (`0x51 … 0x60`). -/
def isSmallInteger (op : Nat) : Bool :=
  op = 0 ∨ (0x51 ≤ op ∧ op ≤ 0x60)

/-- `ScriptInterpreter::smallIntegerValue` (interpreter.cpp:50). -/
def smallIntegerValue (op : Nat) : Nat :=
  if op ≠ 0 ∧ (op < 0x51 ∨ 0x60 < op) then 0 else (op - 0x51) + 1

/-- `ScriptInterpreter::pullDataSize` (interpreter.cpp:160) on the remaining
script after the opcode byte: returns the size of the data push and the
script left over after skipping the data.  A push size exceeding the
remaining script returns size 0 (without skipping); opcodes that push a
fixed small value report size 1 without consuming script bytes. -/
def pullDataSize (op : Nat) (s : List Nat) : Nat × List Nat :=
  if op ≤ 0x4b then
    (if s.length < op then (0, s) else (op, s.drop op))
  else if op = 0 ∨ op = 0x4f ∨ (0x51 ≤ op ∧ op ≤ 0x60) then (1, s)
  else if op = 0x4c then
    -- OP_PUSHDATA1: one length byte
    let len := s.headD 0
    let r := s.drop 1
    (if r.length < len then (0, r) else (len, r.drop len))
  else if op = 0x4d then
    -- OP_PUSHDATA2: two little-endian length bytes
    let len := s.headD 0 + 256 * (s.drop 1).headD 0
    let r := s.drop 2
    (if r.length < len then (0, r) else (len, r.drop len))
  else if op = 0x4e then
    -- OP_PUSHDATA4: four little-endian length bytes
    let len := s.headD 0 + 256 * (s.drop 1).headD 0 + 65536 * (s.drop 2).headD 0 +
      16777216 * (s.drop 3).headD 0
    let r := s.drop 4
    (if r.length < len then (0, r) else (len, r.drop len))
  else (0, s)

theorem pullDataSize_length (op : Nat) (s : List Nat) :
    (pullDataSize op s).2.length ≤ s.length := by
  unfold pullDataSize
  split_ifs <;> (try simp [List.length_drop]) <;> (try split) <;>
    (try simp [List.length_drop]) <;> omega

/-- `ScriptInterpreter::isPushOnly` (interpreter.cpp:31). -/
def isPushOnly : List Nat → Bool
  | [] => true
  | op :: r =>
    if op = 0 then isPushOnly r
    else
      let p := pullDataSize op r
      if p.1 = 0 then false else isPushOnly p.2
termination_by s => s.length
decreasing_by
  all_goals
    have h := pullDataSize_length op r
    simp only [List.length_cons]
    omega

/-- The multi-signature recognition loop of
`ScriptInterpreter::parseOutputScript` (interpreter.cpp:125-154).  Note the
source condition `dataSize >= 33 || dataSize <= 65` (a tautology) is kept
as written. -/
def parseMultiSigKeys : List Nat → Nat → ScriptType
  | [], _ => ScriptType.NON_STANDARD
  | op :: r, publicKeyCount =>
    if isSmallInteger op then
      let scriptKeyCount := smallIntegerValue op
      if scriptKeyCount = 0 ∨ scriptKeyCount ≠ publicKeyCount then
        ScriptType.NON_STANDARD
      else
        match r with
        | [0xae] => ScriptType.MULTI_SIG
        | _ => ScriptType.NON_STANDARD
    else
      let p := pullDataSize op r
      if p.1 = 0 then ScriptType.NON_STANDARD
      else if 33 ≤ p.1 ∨ p.1 ≤ 65 then parseMultiSigKeys p.2 (publicKeyCount + 1)
      else ScriptType.NON_STANDARD
termination_by s _ => s.length
decreasing_by
  all_goals
    have h := pullDataSize_length op r
    simp only [List.length_cons]
    omega

/-- `ScriptInterpreter::parseOutputScript` (interpreter.cpp:70).  The P2PK
branch keeps the source condition `dataSize >= 33 || dataSize <= 65`
verbatim.  Reads past the end of the script (undefined in the source) are
modelled as `NON_STANDARD`. -/
def parseOutputScript : List Nat → ScriptType
  | [] => ScriptType.NON_STANDARD
  | op :: rest =>
    if op = 0x6a then
      -- OP_RETURN
      (if isPushOnly rest then ScriptType.NULL_DATA else ScriptType.NON_STANDARD)
    else if op = 0x76 then
      -- OP_DUP OP_HASH160 <20 bytes> OP_EQUALVERIFY OP_CHECKSIG
      match rest with
      | 0xa9 :: 20 :: r2 =>
        if r2.length < 20 then ScriptType.NON_STANDARD
        else
          match r2.drop 20 with
          | 0x88 :: 0xac :: _ => ScriptType.P2PKH
          | _ => ScriptType.NON_STANDARD
      | _ => ScriptType.NON_STANDARD
    else if op = 0xa9 then
      -- OP_HASH160 <20 bytes> OP_EQUAL
      match rest with
      | 20 :: r2 =>
        if r2.length < 20 then ScriptType.NON_STANDARD
        else
          match r2.drop 20 with
          | 0x87 :: _ => ScriptType.P2SH
          | _ => ScriptType.NON_STANDARD
      | _ => ScriptType.NON_STANDARD
    else
      let p := pullDataSize op rest
      if 1 < p.1 then
        -- P2PK candidate: data push followed by OP_CHECKSIG
        (if (33 ≤ p.1 ∨ p.1 ≤ 65) ∧ p.2.headD 0 = 0xac then ScriptType.P2PK
         else ScriptType.NON_STANDARD)
      else if isSmallInteger op then
        if smallIntegerValue op = 0 then ScriptType.NON_STANDARD
        else parseMultiSigKeys rest 0
      else ScriptType.NON_STANDARD

/-! ## Digit-list facts used for the arithmetic encoding -/

theorem digits_length_le {m k : Nat} (h : m < 256 ^ k) :
    (Nat.digits 256 m).length ≤ k := by
  rcases eq_or_ne m 0 with rfl | hm
  · simp
  · rw [Nat.digits_len 256 m (by norm_num) hm]
    have := Nat.log_lt_of_lt_pow hm h
    omega

theorem digits_getLastD_ne_zero {m : Nat} (hm : m ≠ 0) :
    (Nat.digits 256 m).getLastD 0 ≠ 0 := by
  have hne : Nat.digits 256 m ≠ [] := Nat.digits_ne_nil_iff_ne_zero.mpr hm
  rw [List.getLastD_eq_getLast? 0 (Nat.digits 256 m), List.getLast?_eq_getLast _ hne]
  simpa using Nat.getLast_digit_ne_zero 256 hm

theorem digits_getLastD_lt {m : Nat} : (Nat.digits 256 m).getLastD 0 < 256 := by
  rcases eq_or_ne (Nat.digits 256 m) [] with he | hne
  · simp [he]
  · rw [List.getLastD_eq_getLast? 0 (Nat.digits 256 m), List.getLast?_eq_getLast _ hne]
    exact Nat.digits_lt_base (by norm_num) (List.getLast_mem hne)

theorem digits_dropLast_getLastD {m : Nat} (hm : m ≠ 0) :
    (Nat.digits 256 m).dropLast ++ [(Nat.digits 256 m).getLastD 0] =
      Nat.digits 256 m := by
  have hne : Nat.digits 256 m ≠ [] := Nat.digits_ne_nil_iff_ne_zero.mpr hm
  rw [List.getLastD_eq_getLast? 0 (Nat.digits 256 m), List.getLast?_eq_getLast _ hne]
  exact List.dropLast_append_getLast hne

theorem lor_128_of_lt {a : Nat} (h : a < 128) : a ||| 128 = a + 128 := by
  have H : ∀ b < 128, b ||| 128 = b + 128 := by decide
  exact H a h

theorem getLastD_concat (l : List Nat) (a d : Nat) : (l ++ [a]).getLastD d = a := by
  rw [List.getLastD_eq_getLast? d (l ++ [a]), List.getLast?_concat]
  rfl

/-- C6: for every integer `v` with `|v| ≤ 2^31 − 1`,
`arithmeticRead (arithmeticWrite v)` succeeds and returns `v`, and
`arithmeticWrite v` is the shortest little-endian sign-magnitude encoding
of `v` (zero is the empty string; no unnecessary leading zero bytes). -/
theorem claim_C6_arithmetic_roundtrip (v : Int) (h1 : -(2 ^ 31 - 1) ≤ v)
    (h2 : v ≤ 2 ^ 31 - 1) :
    arithmeticRead (arithmeticWrite v) = some v ∧
      arithmeticWrite v = shortestSignMagnitudeLE v := by
  have hm : v.natAbs ≤ 2 ^ 31 - 1 := by omega
  have hv64 : v.natAbs % 2 ^ 64 = v.natAbs := Nat.mod_eq_of_lt (by omega)
  have hlen : (Nat.digits 256 v.natAbs).length ≤ 4 :=
    digits_length_le (show v.natAbs < 256 ^ 4 by norm_num; omega)
  rcases eq_or_ne v 0 with rfl | hv0
  · simp [arithmeticWrite, arithmeticRead, shortestSignMagnitudeLE]
  · have hm0 : v.natAbs ≠ 0 := by omega
    have hne : Nat.digits 256 v.natAbs ≠ [] := Nat.digits_ne_nil_iff_ne_zero.mpr hm0
    have htop0 : (Nat.digits 256 v.natAbs).getLastD 0 ≠ 0 := digits_getLastD_ne_zero hm0
    have htop256 : (Nat.digits 256 v.natAbs).getLastD 0 < 256 := digits_getLastD_lt
    have hsplit : (Nat.digits 256 v.natAbs).dropLast ++
        [(Nat.digits 256 v.natAbs).getLastD 0] = Nat.digits 256 v.natAbs :=
      digits_dropLast_getLastD hm0
    have hofd : Nat.ofDigits 256 (Nat.digits 256 v.natAbs) = v.natAbs :=
      Nat.ofDigits_digits 256 v.natAbs
    have hlen8 : (Nat.digits 256 v.natAbs).length ≠ 8 := by omega
    have hlen0 : (Nat.digits 256 v.natAbs).length ≠ 0 := by
      simpa [List.length_eq_zero] using hne
    have hdsne : ¬((Nat.digits 256 v.natAbs).isEmpty = true) := by
      simp [List.isEmpty_iff, hne]
    have hLdrop : ((Nat.digits 256 v.natAbs).dropLast ++
        [(Nat.digits 256 v.natAbs).getLastD 0 + 128]).length =
        (Nat.digits 256 v.natAbs).length := by
      conv_rhs => rw [← hsplit]
      simp
    rcases lt_or_le v 0 with hvneg | hvpos
    · -- v < 0
      rcases lt_or_le ((Nat.digits 256 v.natAbs).getLastD 0) 128 with ht | ht
      · -- top bit free: the sign is folded into the most significant byte
        have hw : arithmeticWrite v = (Nat.digits 256 v.natAbs).dropLast ++
            [(Nat.digits 256 v.natAbs).getLastD 0 + 128] := by
          unfold arithmeticWrite
          simp only [hv64]
          rw [if_neg hdsne, if_pos hvneg, if_neg (by omega :
            ¬128 ≤ (Nat.digits 256 v.natAbs).getLastD 0), lor_128_of_lt ht]
        have hshort : shortestSignMagnitudeLE v =
            (Nat.digits 256 v.natAbs).dropLast ++
              [(Nat.digits 256 v.natAbs).getLastD 0 + 128] := by
          unfold shortestSignMagnitudeLE
          rw [if_neg hv0]
          simp only []
          rw [if_neg (by omega : ¬128 ≤ (Nat.digits 256 v.natAbs).getLastD 0),
            if_pos hvneg]
        refine ⟨?_, by rw [hw, hshort]⟩
        rw [hw]
        have h8 : ¬8 < ((Nat.digits 256 v.natAbs).dropLast ++
            [(Nat.digits 256 v.natAbs).getLastD 0 + 128]).length := by omega
        have h0 : ¬((Nat.digits 256 v.natAbs).dropLast ++
            [(Nat.digits 256 v.natAbs).getLastD 0 + 128]).length = 0 := by omega
        have h4 : ¬4 < ((Nat.digits 256 v.natAbs).dropLast ++
            [(Nat.digits 256 v.natAbs).getLastD 0 + 128]).length := by omega
        have hcond : ¬(((128 : Nat) ≤ (Nat.digits 256 v.natAbs).getLastD 0 + 128 ∧
            (Nat.digits 256 v.natAbs).getLastD 0 + 128 = 128) ∨
            (¬(128 : Nat) ≤ (Nat.digits 256 v.natAbs).getLastD 0 + 128 ∧
            (Nat.digits 256 v.natAbs).getLastD 0 + 128 = 0)) := by omega
        have hplus : (128 : Nat) ≤ (Nat.digits 256 v.natAbs).getLastD 0 + 128 := by omega
        unfold arithmeticRead
        simp only [getLastD_concat, if_neg h8, if_neg h0, if_neg hcond, if_neg h4,
          List.dropLast_concat, if_pos hplus, Nat.add_sub_cancel, hsplit, hofd]
        show some (-(v.natAbs : Int)) = some v
        simp only [Option.some_inj]
        omega
      · -- top bit occupied: a pure 0x80 sign byte is appended
        have hw : arithmeticWrite v = Nat.digits 256 v.natAbs ++ [128] := by
          unfold arithmeticWrite
          simp only [hv64]
          rw [if_neg hdsne, if_pos hvneg, if_pos ht, if_neg hlen8]
        have hshort : shortestSignMagnitudeLE v = Nat.digits 256 v.natAbs ++ [128] := by
          unfold shortestSignMagnitudeLE
          rw [if_neg hv0]
          simp only []
          rw [if_pos ht, if_pos hvneg]
        refine ⟨?_, by rw [hw, hshort]⟩
        rw [hw]
        have hL : (Nat.digits 256 v.natAbs ++ [128]).length =
            (Nat.digits 256 v.natAbs).length + 1 := by simp
        have h8 : ¬8 < (Nat.digits 256 v.natAbs ++ [128]).length := by omega
        have h0 : ¬(Nat.digits 256 v.natAbs ++ [128]).length = 0 := by omega
        have h5 : ¬5 < (Nat.digits 256 v.natAbs ++ [128]).length := by omega
        unfold arithmeticRead
        simp only [getLastD_concat, List.dropLast_concat, if_neg h8, if_neg h0,
          if_neg h5, hofd]
        show some (-(v.natAbs : Int)) = some v
        simp only [Option.some_inj]
        omega
    · -- 0 < v
      rcases lt_or_le ((Nat.digits 256 v.natAbs).getLastD 0) 128 with ht | ht
      · -- plain digits
        have hw : arithmeticWrite v = Nat.digits 256 v.natAbs := by
          unfold arithmeticWrite
          simp only [hv64]
          rw [if_neg hdsne, if_neg (by omega : ¬v < 0), if_neg (by omega :
            ¬128 ≤ (Nat.digits 256 v.natAbs).getLastD 0)]
        have hshort : shortestSignMagnitudeLE v = Nat.digits 256 v.natAbs := by
          unfold shortestSignMagnitudeLE
          rw [if_neg hv0]
          simp only []
          rw [if_neg (by omega : ¬128 ≤ (Nat.digits 256 v.natAbs).getLastD 0),
            if_neg (by omega : ¬v < 0)]
          exact hsplit
        refine ⟨?_, by rw [hw, hshort]⟩
        rw [hw]
        have h8 : ¬8 < (Nat.digits 256 v.natAbs).length := by omega
        have h4 : ¬4 < (Nat.digits 256 v.natAbs).length := by omega
        have hcond : ¬(((128 : Nat) ≤ (Nat.digits 256 v.natAbs).getLastD 0 ∧
            (Nat.digits 256 v.natAbs).getLastD 0 = 128) ∨
            (¬(128 : Nat) ≤ (Nat.digits 256 v.natAbs).getLastD 0 ∧
            (Nat.digits 256 v.natAbs).getLastD 0 = 0)) := by omega
        have htle : ¬(128 : Nat) ≤ (Nat.digits 256 v.natAbs).getLastD 0 := by omega
        unfold arithmeticRead
        simp only [if_neg h8, if_neg hlen0, if_neg hcond, if_neg h4, if_neg htle,
          hsplit, hofd]
        show some ((v.natAbs : Int)) = some v
        simp only [Option.some_inj]
        omega
      · -- top bit occupied: a 0x00 byte is appended
        have hw : arithmeticWrite v = Nat.digits 256 v.natAbs ++ [0] := by
          unfold arithmeticWrite
          simp only [hv64]
          rw [if_neg hdsne, if_neg (by omega : ¬v < 0), if_pos ht, if_neg hlen8]
        have hshort : shortestSignMagnitudeLE v = Nat.digits 256 v.natAbs ++ [0] := by
          unfold shortestSignMagnitudeLE
          rw [if_neg hv0]
          simp only []
          rw [if_pos ht, if_neg (by omega : ¬v < 0)]
        refine ⟨?_, by rw [hw, hshort]⟩
        rw [hw]
        have hL : (Nat.digits 256 v.natAbs ++ [0]).length =
            (Nat.digits 256 v.natAbs).length + 1 := by simp
        have h8 : ¬8 < (Nat.digits 256 v.natAbs ++ [0]).length := by omega
        have h0 : ¬(Nat.digits 256 v.natAbs ++ [0]).length = 0 := by omega
        have h5 : ¬5 < (Nat.digits 256 v.natAbs ++ [0]).length := by omega
        unfold arithmeticRead
        simp only [getLastD_concat, List.dropLast_concat, if_neg h8, if_neg h0,
          if_neg h5, hofd]
        show some ((v.natAbs : Int)) = some v
        simp only [Option.some_inj]
        omega

theorem claim_C6_witness :
    arithmeticRead (arithmeticWrite (-255)) = some (-255) ∧
      arithmeticWrite (-255) = shortestSignMagnitudeLE (-255) :=
  claim_C6_arithmetic_roundtrip (-255) (by decide) (by decide)

/-! ## C10: `Chain::getBlockHashes` bounds -/

theorem collectHashes_eq_of_le (hashes : List Nat) :
    ∀ c i, i + c ≤ hashes.length →
      collectHashes hashes i c = some (((hashes.drop i).take c)) := by
  intro c
  induction c with
  | zero => intro i _; simp [collectHashes]
  | succ n ih =>
    intro i hle
    have hi : i < hashes.length := by omega
    have hget : hashes.get? i = some hashes[i] := by
      simp [List.get?_eq_getElem?, List.getElem?_eq_getElem hi]
    have hdrop : hashes.drop i = hashes[i] :: hashes.drop (i + 1) :=
      List.drop_eq_getElem_cons hi
    rw [collectHashes, hget, ih (i + 1) (by omega), hdrop, List.take_succ_cons]
    rfl

theorem collectHashes_isSome_iff (hashes : List Nat) :
    ∀ c i, 0 < c →
      ((collectHashes hashes i c).isSome ↔ i + c ≤ hashes.length) := by
  intro c
  induction c with
  | zero => intro i h; omega
  | succ n ih =>
    intro i _
    rw [collectHashes]
    rcases Nat.lt_or_ge i hashes.length with hi | hi
    · have hget : hashes.get? i = some hashes[i] := by
        simp [List.get?_eq_getElem?, List.getElem?_eq_getElem hi]
      rw [hget]
      rcases Nat.eq_zero_or_pos n with rfl | hn
      · simp [collectHashes]; omega
      · rw [Option.isSome_map', ih (i + 1) hn]
        omega
    · have hget : hashes.get? i = none := by
        simp [List.get?_eq_getElem?, List.getElem?_eq_none_iff]
        omega
      rw [hget]
      simp
      omega

/-- C10: `Chain::getBlockHashes`, given a starting hash found at height `h`
and a count `c`, collects exactly the `c` consecutive hashes starting at
height `h` by raw indexing; the accesses stay in bounds iff
`h + c ≤ length` — a request extending past the tip is not truncated but
runs off the end of the array. -/
theorem claim_C10_getBlockHashes (hashes : List Nat) (s h c : Nat)
    (hfound : hashes.findIdx? (fun x => x = s) = some h) :
    (h + c ≤ hashes.length →
      getBlockHashes hashes s c = some ((hashes.drop h).take c)) ∧
    (0 < c → ((getBlockHashes hashes s c).isSome ↔ h + c ≤ hashes.length)) := by
  constructor
  · intro hle
    rw [getBlockHashes, hfound]
    exact collectHashes_eq_of_le hashes c h hle
  · intro hc
    rw [getBlockHashes, hfound]
    exact collectHashes_isSome_iff hashes c h hc

theorem claim_C10_witness :
    getBlockHashes [10, 20, 30] 20 2 = some [20, 30] ∧
      getBlockHashes [10, 20, 30] 20 3 = none := by
  have h2 := claim_C10_getBlockHashes [10, 20, 30] 20 1 2 (by decide)
  have h3 := claim_C10_getBlockHashes [10, 20, 30] 20 1 3 (by decide)
  constructor
  · simpa using h2.1 (by decide)
  · have hiff := h3.2 (by decide)
    have hn : ¬(getBlockHashes [10, 20, 30] 20 3).isSome = true := by
      rw [hiff]; decide
    exact Option.not_isSome_iff_eq_none.mp hn

/-! ## C7: P2PK recognition -/

/-- C7 (code bug): the P2PK branch of `parseOutputScript` tests
`dataSize >= 33 || dataSize <= 65` — a tautology, `||` where the comment
("Valid size for public key") and the spec require `&&` — so a script
pushing only 2 bytes followed by `OP_CHECKSIG` is classified `P2PK`
although 2 is not a valid public-key size. -/
theorem claim_C7_p2pk_size_bug :
    parseOutputScript [2, 0xaa, 0xbb, 0xac] = ScriptType.P2PK ∧ ¬(33 ≤ 2) := by
  constructor
  · rfl
  · decide

/-! ## C2: `Transaction::process` fee accounting

The transaction-validation routine (unnamed source part 002, lines
708-876).  The UTXO pool lookup and the per-input script evaluation are
abstracted as oracles: `findUnspent` maps an outpoint to the amount of the
unspent output it resolves to (`none` when the outpoint is unknown,
modelling `TransactionOutputPool::findUnspent` returning `NULL`), and
`scriptsOk i` is the combined outcome of the interpreter runs and the
`isValid`/`isVerified` checks for input `i`.  Amounts are `int64_t` in the
source; they are modelled as `Int` (signed overflow is undefined behaviour
in the source and is not modelled).  The pool mutations (`spend`, `add`)
do not feed back into this single call and are not modelled. -/

/-- An input's outpoint: `(prevTxid, prevIndex)`. -/
structure Outpoint where
  txid : Nat
  index : Nat
  deriving DecidableEq, Repr

/-- The non-coinbase input loop of `Transaction::process` (part 002,
lines 758-843): each outpoint must resolve in the pool, the scripts must
verify, and `mFee` accumulates the spent outputs' amounts. -/
def processInputs (findUnspent : Outpoint → Option Int) (scriptsOk : Nat → Bool) :
    List Outpoint → Nat → Option Int
  | [], _ => some 0
  | op :: rest, idx =>
    match findUnspent op with
    | none => none
    | some amount =>
      if ¬scriptsOk idx then none
      else (processInputs findUnspent scriptsOk rest (idx + 1)).map fun f => amount + f

/-- The output loop of `Transaction::process` (part 002, lines 845-873):
negative amounts are rejected; a non-coinbase output with positive amount
exceeding the remaining `mFee` is rejected ("Outputs are more than
inputs"); `mFee` is decremented by each output amount. -/
def processOutputs (coinbase : Bool) : Int → List Int → Bool
  | _, [] => true
  | fee, a :: rest =>
    if a < 0 then false
    else if ¬coinbase ∧ 0 < a ∧ fee < a then false
    else processOutputs coinbase (fee - a) rest

/-- `Transaction::process` (part 002, line 708) for a non-coinbase
transaction: run the input loop, then the output loop with the accumulated
fee.  (The coinbase branch checks the synthetic outpoint and the BIP-34
height push instead and is not needed by the claims.) -/
def transactionProcess (findUnspent : Outpoint → Option Int) (scriptsOk : Nat → Bool)
    (inputs : List Outpoint) (outputs : List Int) : Bool :=
  match processInputs findUnspent scriptsOk inputs 0 with
  | none => false
  | some fee => processOutputs false fee outputs

theorem processInputs_nonneg (findUnspent : Outpoint → Option Int)
    (scriptsOk : Nat → Bool)
    (hpool : ∀ op a, findUnspent op = some a → 0 ≤ a) :
    ∀ inputs idx fee, processInputs findUnspent scriptsOk inputs idx = some fee →
      0 ≤ fee := by
  intro inputs
  induction inputs with
  | nil => intro idx fee h; simp [processInputs] at h; omega
  | cons op rest ih =>
    intro idx fee h
    rw [processInputs] at h
    cases hfu : findUnspent op with
    | none => rw [hfu] at h; simp at h
    | some amount =>
      rw [hfu] at h
      by_cases hs : scriptsOk idx
      · simp only [hs, not_true, if_false, Bool.not_true, Bool.false_eq_true,
          Option.map_eq_some'] at h
        obtain ⟨f, hrec, hsum⟩ := h
        have h1 := hpool op amount hfu
        have h2 := ih (idx + 1) f hrec
        omega
      · simp [hs] at h

theorem processOutputs_sum_le (outputs : List Int) :
    ∀ fee, 0 ≤ fee → processOutputs false fee outputs = true →
      outputs.sum ≤ fee := by
  induction outputs with
  | nil => intro fee h0 _; simpa using h0
  | cons a rest ih =>
    intro fee h0 h
    rw [processOutputs] at h
    split_ifs at h with h1 h2 <;>
      first
      | simp at h
      | (have h2' : ¬(0 < a ∧ fee < a) := fun hc => h2 ⟨by simp, hc.1, hc.2⟩
         have hrec := ih (fee - a) (by omega) h
         simp only [List.sum_cons]
         omega)

theorem processOutputs_reject (outputs : List Int) :
    ∀ fee, 0 ≤ fee → fee < outputs.sum →
      processOutputs false fee outputs = false := by
  induction outputs with
  | nil => intro fee h0 hlt; simp at hlt; omega
  | cons a rest ih =>
    intro fee h0 hlt
    rw [processOutputs]
    split_ifs with h1 h2 <;>
      first
      | rfl
      | (have h2' : ¬(0 < a ∧ fee < a) := fun hc => h2 ⟨by simp, hc.1, hc.2⟩
         apply ih (fee - a) (by omega)
         simp only [List.sum_cons] at hlt
         omega)

/-- C2: a non-coinbase transaction accepted by `Transaction::process` has
Σ input amounts (`fee`, the sum of the resolved spent outputs) at least
Σ output amounts; a transaction whose outputs total more than its inputs
is rejected.  The pool hypothesis records the invariant maintained by the
code itself: every output stored in the pool passed the `amount < 0`
rejection, so resolved amounts are non-negative. -/
theorem claim_C2_fee_conservation (findUnspent : Outpoint → Option Int)
    (scriptsOk : Nat → Bool) (inputs : List Outpoint) (outputs : List Int)
    (fee : Int)
    (hpool : ∀ op a, findUnspent op = some a → 0 ≤ a)
    (hfee : processInputs findUnspent scriptsOk inputs 0 = some fee) :
    (transactionProcess findUnspent scriptsOk inputs outputs = true →
      outputs.sum ≤ fee) ∧
    (fee < outputs.sum →
      transactionProcess findUnspent scriptsOk inputs outputs = false) := by
  have h0 : 0 ≤ fee := processInputs_nonneg findUnspent scriptsOk hpool inputs 0 fee hfee
  constructor
  · intro hacc
    rw [transactionProcess, hfee] at hacc
    exact processOutputs_sum_le outputs fee h0 hacc
  · intro hlt
    rw [transactionProcess, hfee]
    exact processOutputs_reject outputs fee h0 hlt

theorem claim_C2_witness :
    transactionProcess (fun _ => some 5) (fun _ => true) [⟨1, 0⟩] [3] = true ∧
      ([3] : List Int).sum ≤ 5 := by
  have h := claim_C2_fee_conservation (fun _ => some 5) (fun _ => true)
    [⟨1, 0⟩] [3] 5
    (by intro op a ha; simp only [Option.some_inj] at ha; omega)
    (by rfl)
  exact ⟨rfl, h.1 rfl⟩

/-! ## C5: `ScriptInterpreter::checkSignature` FORKID gating -/

/-- Modelled from the spec: `Signature::FORKID` — the hash-type flag bit
required after the Cash fork (key.hpp is not in src/; the value 0x40 is
the one fixed by the upstream Cash specification the spec declares
bit-exactness with). -/
def FORKID : Nat := 0x40

/-- Modelled from the spec: the hash-type byte is the final byte of the
signature encoding on the stack (`Signature::hashType`, key.hpp not in
src/). -/
def sigHashType (sig : List Nat) : Nat := sig.getLastD 0

/-- The evaluation context of `ScriptInterpreter::checkSignature`: the
fork state plus oracles for the two cryptographic steps —
`sigHashOk off ht` models `Transaction::getSignatureHash` succeeding, and
`verify sig pub off ht` models `Signature::verify` (ECDSA) against the
computed hash. -/
structure SigCtx where
  cashActive : Bool
  sigHashOk : Nat → Nat → Bool
  verify : List Nat → List Nat → Nat → Nat → Bool

/-- `ScriptInterpreter::checkSignature` (interpreter.cpp:816): reject when
the FORKID flag is absent while the Cash fork is active, or present while
it is not; then compute the signature hash and run ECDSA verification. -/
def checkSignature (ctx : SigCtx) (sig pub : List Nat) (sigStartOffset : Nat) : Bool :=
  let hashType := sigHashType sig
  if ctx.cashActive ∧ hashType &&& FORKID = 0 then false
  else if ¬ctx.cashActive = true ∧ hashType &&& FORKID ≠ 0 then false
  else if ¬ctx.sigHashOk sigStartOffset hashType then false
  else ctx.verify sig pub sigStartOffset hashType

/-- C5: `checkSignature` returns `false` whenever the hash-type byte lacks
FORKID while the Cash fork is active, or carries FORKID while it is not
active.  The context `ctx` — including the ECDSA oracle — is universally
quantified, so the rejection happens regardless of any ECDSA evaluation. -/
theorem claim_C5_forkid_gate (ctx : SigCtx) (sig pub : List Nat) (off : Nat)
    (h : (ctx.cashActive = true ∧ sigHashType sig &&& FORKID = 0) ∨
      (ctx.cashActive = false ∧ sigHashType sig &&& FORKID ≠ 0)) :
    checkSignature ctx sig pub off = false := by
  rw [checkSignature]
  rcases h with ⟨hc, hf⟩ | ⟨hc, hf⟩
  · rw [if_pos ⟨by simp [hc], hf⟩]
  · rw [if_neg (by simp [hc]), if_pos (by simp [hc, hf])]

theorem claim_C5_witness :
    checkSignature ⟨true, fun _ _ => true, fun _ _ _ _ => true⟩ [48, 1] [2] 0 = false ∧
      checkSignature ⟨false, fun _ _ => true, fun _ _ _ _ => true⟩ [48, 0x41] [2] 0 = false :=
  ⟨claim_C5_forkid_gate _ [48, 1] [2] 0 (Or.inl ⟨rfl, by decide⟩),
   claim_C5_forkid_gate _ [48, 0x41] [2] 0 (Or.inr ⟨rfl, by decide⟩)⟩

/-! ## Chain state: blocks, statistics, difficulty (claims C1, C3, C4)

Heights, times and target bits are `uint32`/`int` in the source and become
`Nat` (wrap-around subtraction is written `(a + 2^32 - b) % 2^32`); the
256-bit `Hash` work values become `Nat` reduced modulo `2 ^ 256` where the
source wraps. -/

/-- The header fields of a block that the chain manager reads (block.hpp
is not in src/; the fields are those used by chain.cpp).  `isFull` is
`transactionCount > 0` (chain.hpp:133). -/
structure BlockM where
  hash : Nat
  version : Int
  time : Nat
  targetBits : Nat
  transactionCount : Nat
  size : Nat
  deriving DecidableEq, Repr, Inhabited

def BlockM.isFull (b : BlockM) : Bool := 0 < b.transactionCount

/-- `PendingBlockData` (chain.hpp:108), reduced to the fields the claims
read. -/
structure PendingBlockM where
  block : BlockM
  requestingNode : Nat
  deriving DecidableEq, Repr, Inhabited

/-- One entry of `BlockStats` (stats code not in src/).  Modelled from the
spec: "BlockStats holds, for each recent block, {version, time,
targetBits, accumulatedWork}". -/
structure BlockStat where
  version : Int
  time : Nat
  targetBits : Nat
  accumulatedWork : Nat
  deriving DecidableEq, Repr, Inhabited

/-- Modelled from the spec: a 32-bit compact `targetBits` encodes a
256-bit target as an 8-bit (byte-count) exponent plus a 24-bit mantissa
(`Hash::setDifficulty`, ArcMist library not in src/). -/
def targetFromCompact (bits : Nat) : Nat :=
  let e := bits / 2 ^ 24
  let m := bits % 2 ^ 24
  if 3 ≤ e then m * 256 ^ (e - 3) else m / 256 ^ (3 - e)

/-- Modelled from the spec: "the work contributed by a block is
`floor(2^256 / (target + 1))`" (`Hash::getWork`, not in src/). -/
def workFromCompact (bits : Nat) : Nat :=
  2 ^ 256 / (targetFromCompact bits + 1)

/-- Modelled from the spec: pack a 256-bit target to compact bits
(`Hash::getDifficulty`): the exponent is the byte length of the target and
the mantissa its top three bytes, shifted once more when the mantissa's
top bit would read as a sign. -/
def toCompact (t : Nat) : Nat :=
  if t = 0 then 0
  else
    let L := (Nat.digits 256 t).length
    let m3 := if 3 ≤ L then t / 256 ^ (L - 3) else t * 256 ^ (3 - L)
    if 2 ^ 23 ≤ m3 then (L + 1) * 2 ^ 24 + m3 / 256
    else L * 2 ^ 24 + m3

/-- Modelled from the spec: `Hash::getDifficulty(bits, maxBits)` packs the
target, clamped at the chain's maximum target. -/
def getDifficulty (t : Nat) (maxBits : Nat) : Nat :=
  if targetFromCompact maxBits < t then toCompact (targetFromCompact maxBits)
  else toCompact t

def defaultStat : BlockStat := ⟨0, 0, 0, 0⟩

def statTime (s : List BlockStat) (h : Nat) : Nat := (s.getD h defaultStat).time

def statTargetBits (s : List BlockStat) (h : Nat) : Nat :=
  (s.getD h defaultStat).targetBits

def statAccumulatedWork (s : List BlockStat) (h : Nat) : Nat :=
  (s.getD h defaultStat).accumulatedWork

/-- Modelled from the spec: `BlockStats::add` appends the new header's
fields, accumulating the work derived from its compact target. -/
def statsAdd (s : List BlockStat) (version : Int) (time targetBits : Nat) :
    List BlockStat :=
  s ++ [⟨version, time, targetBits,
    ((s.getLast?).map fun st => st.accumulatedWork).getD 0 +
      workFromCompact targetBits⟩]

/-- Modelled from the spec: `BlockStats::revert h` keeps the entries up to
height `h`. -/
def statsRevert (s : List BlockStat) (h : Nat) : List BlockStat := s.take (h + 1)

/-- Stable insertion by a `Nat` key (used for the medians; structurally
recursive so that concrete instances evaluate in the kernel). -/
def insertByKey {α : Type} (key : α → Nat) (a : α) : List α → List α
  | [] => [a]
  | b :: r => if key a ≤ key b then a :: b :: r else b :: insertByKey key a r

/-- Stable insertion sort by a `Nat` key. -/
def sortByKey {α : Type} (key : α → Nat) : List α → List α
  | [] => []
  | a :: r => insertByKey key a (sortByKey key r)

/-- Modelled from the spec: MTP — "median of the timestamps of the last 11
blocks" ending at height `h` (`BlockStats::getMedianPastTime`, not in
src/). -/
def getMedianPastTime (s : List BlockStat) (h : Nat) : Nat :=
  let w := sortByKey (fun t => t)
    (((s.take (h + 1)).map fun st => st.time).reverse.take 11)
  w.getD (w.length / 2) 0

/-- Modelled from the spec: "median-past-time-and-work" with window 3 at
height `h`: the (time, accumulated-work) pair of the median-by-time of the
three entries ending at `h` (`BlockStats::getMedianPastTimeAndWork`, not
in src/). -/
def getMedianPastTimeAndWork (s : List BlockStat) (h : Nat) : Nat × Nat :=
  let w := sortByKey (fun p => p.1)
    (((s.take (h + 1)).reverse.take 3).map fun st => (st.time, st.accumulatedWork))
  w.getD (w.length / 2) (0, 0)

/-- A branch of competing blocks (`Branch`, chain.hpp:153). -/
structure BranchM where
  height : Nat
  pendingBlocks : List PendingBlockM
  accumulatedWork : Nat
  deriving DecidableEq, Repr, Inhabited

/-- The chain manager state (`Chain`, chain.hpp:175), reduced to the
fields the claims read; the UTXO pool, the mempool, the block files and
the announcement queues are outside the model.  `cashActive` stands for
`mForks.cashActive()` (forks.cpp is not in src/; `Forks::process` /
`Forks::revert` are modelled as preserving it). -/
structure ChainState where
  blocks : List BlockM
  nextBlockHeight : Nat
  lastBlockHash : Nat
  targetBits : Nat
  maxTargetBits : Nat
  blockStats : List BlockStat
  cashActive : Bool
  pendingBlocks : List PendingBlockM
  pendingAccumulatedWork : Nat
  branches : List BranchM
  blackListBlocks : List Nat
  blackListedNodeIDs : List Nat
  isTestnet : Bool
  deriving DecidableEq, Repr, Inhabited

/-- `RETARGET_PERIOD` (base code not in src/; the spec: "every 2016
blocks"). -/
def RETARGET_PERIOD : Nat := 2016

/-- The Cash DAA maximum target
`00000000ffffffffffffffffffffffffffffffffffffffffffffffffffffffff`
(chain.cpp:138), i.e. `2 ^ 224 − 1`. -/
def sMaxTargetDAA : Nat := 2 ^ 224 - 1

/-- `multiplyTargetBits(bits, factor, maxBits)` (base code not in src/).
Modelled from the spec: "new target = prevTarget × factor, clamped"; the
source computes with `double`s, modelled here by the exact rational
`num / den` (no claim depends on the floating-point branches). -/
def multiplyTargetBits (bits num den maxBits : Nat) : Nat :=
  getDifficulty (targetFromCompact bits * num / den) maxBits

def chainAccumulatedWork (c : ChainState) : Nat :=
  statAccumulatedWork c.blockStats (c.blockStats.length - 1)

/-- `Chain::updateTargetBits` (chain.cpp:66).  `h` is
`mBlockStats.height()`; the `height() <= 1` guard covers stats of length
at most 2.  Subtractions of `uint32` times and of 256-bit work values
follow the source's wrap-around. -/
def updateTargetBits (c : ChainState) : ChainState :=
  let h := c.blockStats.length - 1
  if c.blockStats.length ≤ 2 then { c with targetBits := c.maxTargetBits }
  else
    let afterCash :=
      if c.cashActive then
        if 1510600000 < getMedianPastTime c.blockStats h then
          if 146 < h then
            -- Nov 13th Bitcoin Cash hard fork DAA (cw-144)
            let lw := getMedianPastTimeAndWork c.blockStats (h - 1)
            let fw := getMedianPastTimeAndWork c.blockStats (h - 145)
            let timeSpan0 := (lw.1 + 2 ^ 32 - fw.1) % 2 ^ 32
            let timeSpan := if timeSpan0 < 72 * 600 then 72 * 600
              else if 288 * 600 < timeSpan0 then 288 * 600 else timeSpan0
            let work0 := (lw.2 + 2 ^ 256 - fw.2) % 2 ^ 256
            let work1 := work0 * 600 % 2 ^ 256
            let work := work1 / timeSpan
            let target := ((2 ^ 256 - work) % 2 ^ 256) / work
            if sMaxTargetDAA < target then
              { c with targetBits := getDifficulty sMaxTargetDAA c.maxTargetBits }
            else
              { c with targetBits := getDifficulty target c.maxTargetBits }
          else c
        else if 7 < h then
          -- EDA: reduce difficulty by 20% after a 12-hour MTP gap
          let mptDiff := (getMedianPastTime c.blockStats h + 2 ^ 32 -
            getMedianPastTime c.blockStats (h - 6)) % 2 ^ 32
          if 43200 ≤ mptDiff then
            { c with targetBits := (multiplyTargetBits
              (statTargetBits c.blockStats (h - 1)) 5 4 c.maxTargetBits) }
          else c
        else c
      else c
    if h % RETARGET_PERIOD ≠ 0 ∨
        (c.cashActive = true ∧ 1510600000 < getMedianPastTime c.blockStats h) then
      afterCash
    else
      -- original 2016-block retarget, factor clamped to [0.25, 4.0]
      let timeDiff := (statTime c.blockStats (h - 1) + 2 ^ 32 -
        statTime c.blockStats (h - RETARGET_PERIOD)) % 2 ^ 32
      let clamped := min (max timeDiff 302400) 4838400
      { afterCash with targetBits := (multiplyTargetBits
        (statTargetBits c.blockStats (h - 1)) clamped 1209600 c.maxTargetBits) }

/-- Modelled from the spec (§4.6, rule 2 — Cash DAA): with
`lastTime, lastWork = MTP-and-work(height−1, window 3)` and
`firstTime, firstWork = MTP-and-work(height−145, window 3)`,
`timeSpan = clamp(lastTime − firstTime, 72·600, 288·600)`,
`work = (lastWork − firstWork) · 600 / timeSpan`, and the target is
`(2^256 − work) / work` clamped to the maximum target and packed to
compact bits. -/
def cashDAATargetBits (stats : List BlockStat) (maxBits : Nat) : Nat :=
  let h := stats.length - 1
  let lw := getMedianPastTimeAndWork stats (h - 1)
  let fw := getMedianPastTimeAndWork stats (h - 145)
  let timeSpan := min (max (lw.1 - fw.1) (72 * 600)) (288 * 600)
  let work := (lw.2 - fw.2) * 600 / timeSpan
  let target := (2 ^ 256 - work) / work
  getDifficulty (min target sMaxTargetDAA) maxBits

/-- C3: when the Cash fork is active, the median-time-past exceeds
1510600000 and the height exceeds 146, `updateTargetBits` computes
exactly the spec's cw-144 DAA formula.  The time/work hypotheses state
that the wrap-around subtractions of the source coincide with the plain
subtractions of the spec formula (median times fit in `uint32` and the
window's accumulated work is monotone, as maintained by `BlockStats`). -/
theorem claim_C3_cash_daa (c : ChainState)
    (hcash : c.cashActive = true)
    (hmtp : 1510600000 < getMedianPastTime c.blockStats (c.blockStats.length - 1))
    (hh : 146 < c.blockStats.length - 1)
    (hts : (getMedianPastTimeAndWork c.blockStats (c.blockStats.length - 1 - 145)).1 ≤
      (getMedianPastTimeAndWork c.blockStats (c.blockStats.length - 1 - 1)).1)
    (ht32 : (getMedianPastTimeAndWork c.blockStats (c.blockStats.length - 1 - 1)).1 < 2 ^ 32)
    (htw : (getMedianPastTimeAndWork c.blockStats (c.blockStats.length - 1 - 145)).2 ≤
      (getMedianPastTimeAndWork c.blockStats (c.blockStats.length - 1 - 1)).2)
    (hwork : ((getMedianPastTimeAndWork c.blockStats (c.blockStats.length - 1 - 1)).2 -
      (getMedianPastTimeAndWork c.blockStats (c.blockStats.length - 1 - 145)).2) * 600 <
      2 ^ 256) :
    (updateTargetBits c).targetBits = cashDAATargetBits c.blockStats c.maxTargetBits := by
  have hlen : ¬c.blockStats.length ≤ 2 := by omega
  unfold updateTargetBits cashDAATargetBits
  rw [if_neg hlen]
  simp only []
  rw [if_pos hcash, if_pos hmtp, if_pos hh,
    if_pos (Or.inr ⟨hcash, hmtp⟩)]
  have hspan : ((getMedianPastTimeAndWork c.blockStats (c.blockStats.length - 1 - 1)).1 +
      2 ^ 32 - (getMedianPastTimeAndWork c.blockStats (c.blockStats.length - 1 - 145)).1) %
      2 ^ 32 =
      (getMedianPastTimeAndWork c.blockStats (c.blockStats.length - 1 - 1)).1 -
        (getMedianPastTimeAndWork c.blockStats (c.blockStats.length - 1 - 145)).1 := by
    omega
  have hwrap : ((getMedianPastTimeAndWork c.blockStats (c.blockStats.length - 1 - 1)).2 +
      2 ^ 256 - (getMedianPastTimeAndWork c.blockStats (c.blockStats.length - 1 - 145)).2) %
      2 ^ 256 =
      (getMedianPastTimeAndWork c.blockStats (c.blockStats.length - 1 - 1)).2 -
        (getMedianPastTimeAndWork c.blockStats (c.blockStats.length - 1 - 145)).2 := by
    omega
  rw [hspan, hwrap]
  have hmul : ((getMedianPastTimeAndWork c.blockStats (c.blockStats.length - 1 - 1)).2 -
      (getMedianPastTimeAndWork c.blockStats (c.blockStats.length - 1 - 145)).2) * 600 %
      2 ^ 256 =
      ((getMedianPastTimeAndWork c.blockStats (c.blockStats.length - 1 - 1)).2 -
        (getMedianPastTimeAndWork c.blockStats (c.blockStats.length - 1 - 145)).2) * 600 :=
    Nat.mod_eq_of_lt hwork
  rw [hmul]
  have hclamp : (if (getMedianPastTimeAndWork c.blockStats (c.blockStats.length - 1 - 1)).1 -
        (getMedianPastTimeAndWork c.blockStats (c.blockStats.length - 1 - 145)).1 < 72 * 600
      then 72 * 600
      else if 288 * 600 < (getMedianPastTimeAndWork c.blockStats (c.blockStats.length - 1 - 1)).1 -
          (getMedianPastTimeAndWork c.blockStats (c.blockStats.length - 1 - 145)).1
        then 288 * 600
        else (getMedianPastTimeAndWork c.blockStats (c.blockStats.length - 1 - 1)).1 -
          (getMedianPastTimeAndWork c.blockStats (c.blockStats.length - 1 - 145)).1) =
      min (max ((getMedianPastTimeAndWork c.blockStats (c.blockStats.length - 1 - 1)).1 -
        (getMedianPastTimeAndWork c.blockStats (c.blockStats.length - 1 - 145)).1) (72 * 600))
        (288 * 600) := by
    split_ifs <;> omega
  rw [hclamp]
  set w := ((getMedianPastTimeAndWork c.blockStats (c.blockStats.length - 1 - 1)).2 -
    (getMedianPastTimeAndWork c.blockStats (c.blockStats.length - 1 - 145)).2) * 600 /
    min (max ((getMedianPastTimeAndWork c.blockStats (c.blockStats.length - 1 - 1)).1 -
      (getMedianPastTimeAndWork c.blockStats (c.blockStats.length - 1 - 145)).1) (72 * 600))
      (288 * 600) with hwdef
  rcases Nat.eq_zero_or_pos w with hw0 | hwpos
  · -- projected work 0: both sides divide by zero and pack the target 0
    rw [hw0]
    simp only [Nat.sub_zero, Nat.div_zero]
    rw [if_neg (by omega : ¬sMaxTargetDAA < 0), min_eq_left (Nat.zero_le _)]
  · have hwlt : w < 2 ^ 256 :=
      lt_of_le_of_lt (Nat.div_le_self _ _) hwork
    have hmod : (2 ^ 256 - w) % 2 ^ 256 = 2 ^ 256 - w :=
      Nat.mod_eq_of_lt (by omega)
    rw [hmod]
    rcases lt_or_le sMaxTargetDAA ((2 ^ 256 - w) / w) with hlt | hle
    · rw [if_pos hlt, min_eq_right hlt.le]
    · rw [if_neg (by omega : ¬sMaxTargetDAA < (2 ^ 256 - w) / w), min_eq_left hle]

def witC3Stats : List BlockStat :=
  (List.range 148).map fun i => ⟨1, 1600000000, 0x1b00ffff, i⟩

def witC3 : ChainState :=
  { blocks := [], nextBlockHeight := 148, lastBlockHash := 0,
    targetBits := 0x1b00ffff, maxTargetBits := 0x1d00ffff,
    blockStats := witC3Stats, cashActive := true,
    pendingBlocks := [], pendingAccumulatedWork := 0, branches := [],
    blackListBlocks := [], blackListedNodeIDs := [], isTestnet := false }

set_option maxRecDepth 100000 in
theorem claim_C3_witness :
    (updateTargetBits witC3).targetBits =
      cashDAATargetBits witC3.blockStats witC3.maxTargetBits :=
  claim_C3_cash_daa witC3 rfl (by decide) (by decide) (by decide) (by decide)
    (by decide) (by decide)

/-! ## C4: `Chain::checkBranches` (chain.cpp:422) -/

/-- The scan loop of `Chain::checkBranches` (chain.cpp:437-459): for each
branch, compare its accumulated work with the pending accumulated work;
drop branches that fall behind by more than 144 blocks, and track the
branch of maximum work among those strictly exceeding the pending work.
Returns the surviving branches and the selected branch. -/
def branchScan (pendW chainH : Nat) :
    List BranchM → Option BranchM → List BranchM × Option BranchM
  | [], acc => ([], acc)
  | b :: rest, acc =>
    if b.accumulatedWork < pendW ∧ 144 < chainH ∧
        b.height + b.pendingBlocks.length < chainH - 144 then
      branchScan pendW chainH rest acc
    else
      let acc' := if pendW < b.accumulatedWork ∧
          (∀ l ∈ acc.toList, l.accumulatedWork < b.accumulatedWork) then some b
        else acc
      let res := branchScan pendW chainH rest acc'
      (b :: res.1, res.2)

theorem branchScan_sel (pendW chainH : Nat) :
    ∀ bs acc b, (branchScan pendW chainH bs acc).2 = some b →
      acc = some b ∨ (b ∈ bs ∧ pendW < b.accumulatedWork) := by
  intro bs
  induction bs with
  | nil =>
    intro acc b h
    rw [branchScan] at h
    exact Or.inl h
  | cons hd rest ih =>
    intro acc b h
    rw [branchScan] at h
    split_ifs at h with h1 h2
    · rcases ih acc b h with h' | ⟨hm, hw⟩
      · exact Or.inl h'
      · exact Or.inr ⟨List.mem_cons_of_mem hd hm, hw⟩
    · rcases ih (some hd) b h with h' | ⟨hm, hw⟩
      · have he : hd = b := by injection h'
        subst he
        exact Or.inr ⟨List.mem_cons_self hd rest, h2.1⟩
      · exact Or.inr ⟨List.mem_cons_of_mem hd hm, hw⟩
    · rcases ih acc b h with h' | ⟨hm, hw⟩
      · exact Or.inl h'
      · exact Or.inr ⟨List.mem_cons_of_mem hd hm, hw⟩

theorem branchScan_none (pendW chainH : Nat) :
    ∀ bs, (∀ b ∈ bs, b.accumulatedWork ≤ pendW) →
      (branchScan pendW chainH bs none).2 = none := by
  have key : ∀ bs acc, (∀ b ∈ bs, b.accumulatedWork ≤ pendW) → acc = none →
      (branchScan pendW chainH bs acc).2 = none := by
    intro bs
    induction bs with
    | nil =>
      intro acc hall hacc
      rw [branchScan]
      exact hacc
    | cons hd rest ih =>
      intro acc hall hacc
      rw [branchScan]
      split_ifs with h1 h2
      · exact ih acc (fun b hb => hall b (List.mem_cons_of_mem hd hb)) hacc
      · exact absurd h2.1 (by have := hall hd (List.mem_cons_self hd rest); omega)
      · exact ih acc (fun b hb => hall b (List.mem_cons_of_mem hd hb)) hacc
  intro bs hall
  exact key bs none hall rfl

/-- `Chain::revert` (chain.cpp:1201), modelled on the chain fields:
truncate the blocks above `ph`, reset the tip to the block at height `ph`,
and revert the block statistics (the UTXO and mempool reverts are outside
the model). -/
def revertChain (c : ChainState) (ph : Nat) : ChainState :=
  { c with
    blocks := c.blocks.take (ph + 1),
    nextBlockHeight := ph + 1,
    lastBlockHash := (c.blocks.getD ph default).hash,
    blockStats := statsRevert c.blockStats ph }

/-- `Chain::checkBranches` (chain.cpp:422): scan the branches; when one
with more work than the main chain (including its pending blocks) exists,
activate it — save the currently-active blocks above the fork in a new
branch, revert the main chain to the fork point and move the activated
branch's pending blocks into the main pending queue. -/
def checkBranches (c : ChainState) : ChainState :=
  if c.branches.isEmpty then c
  else
    let chainH := c.nextBlockHeight - 1
    let scan := branchScan c.pendingAccumulatedWork chainH c.branches none
    match scan.2 with
    | none => { c with branches := scan.1 }
    | some longest =>
      let savedWork := statAccumulatedWork c.blockStats (longest.height - 1)
      let mainBlocks := (c.blocks.drop longest.height).take (chainH - longest.height)
      let movedBlocks := mainBlocks ++ c.pendingBlocks.map fun p => p.block
      let newBranch : BranchM :=
        { height := longest.height,
          pendingBlocks := movedBlocks.map fun b => ⟨b, 0⟩,
          accumulatedWork := savedWork +
            (movedBlocks.map fun b => workFromCompact b.targetBits).sum }
      let capturedWork := chainAccumulatedWork c
      let c1 := revertChain c (longest.height - 1)
      { c1 with
        pendingBlocks := longest.pendingBlocks,
        pendingAccumulatedWork := capturedWork +
          (longest.pendingBlocks.map fun p => workFromCompact p.block.targetBits).sum,
        branches := scan.1.erase longest ++ [newBranch] }

/-- C4: `checkBranches` activates a branch only when its accumulated work
strictly exceeds the main chain's pending accumulated work (first
conjunct: any selected branch strictly exceeds), and when every branch's
work is at most the main chain's — in particular for competing chains of
equal accumulated work — the active chain is left untouched (no
reorganisation: tip, height, blocks, statistics and pending queue are
unchanged; only stale branches may be dropped). -/
theorem claim_C4_branch_work (c : ChainState) :
    (∀ b, (branchScan c.pendingAccumulatedWork (c.nextBlockHeight - 1)
        c.branches none).2 = some b →
      c.pendingAccumulatedWork < b.accumulatedWork ∧ b ∈ c.branches) ∧
    ((∀ b ∈ c.branches, b.accumulatedWork ≤ c.pendingAccumulatedWork) →
      (checkBranches c).lastBlockHash = c.lastBlockHash ∧
      (checkBranches c).nextBlockHeight = c.nextBlockHeight ∧
      (checkBranches c).blocks = c.blocks ∧
      (checkBranches c).blockStats = c.blockStats ∧
      (checkBranches c).pendingBlocks = c.pendingBlocks ∧
      (checkBranches c).targetBits = c.targetBits) := by
  constructor
  · intro b h
    rcases branchScan_sel _ _ c.branches none b h with h' | ⟨hm, hw⟩
    · exact absurd h' (by simp)
    · exact ⟨hw, hm⟩
  · intro hall
    rw [checkBranches]
    by_cases he : c.branches.isEmpty
    · rw [if_pos he]
      exact ⟨rfl, rfl, rfl, rfl, rfl, rfl⟩
    · rw [if_neg he]
      simp only []
      rw [branchScan_none _ _ c.branches hall]
      exact ⟨rfl, rfl, rfl, rfl, rfl, rfl⟩

def witC4 : ChainState :=
  { blocks := [⟨5, 1, 0, 0x1d00ffff, 1, 100⟩], nextBlockHeight := 1,
    lastBlockHash := 5, targetBits := 0x1d00ffff, maxTargetBits := 0x1d00ffff,
    blockStats := [⟨1, 0, 0x1d00ffff, 4⟩], cashActive := false,
    pendingBlocks := [], pendingAccumulatedWork := 10,
    branches := [⟨1, [], 10⟩, ⟨1, [], 10⟩],
    blackListBlocks := [], blackListedNodeIDs := [], isTestnet := false }

theorem claim_C4_witness :
    (checkBranches witC4).lastBlockHash = witC4.lastBlockHash ∧
      (checkBranches witC4).nextBlockHeight = witC4.nextBlockHeight ∧
      (checkBranches witC4).blocks = witC4.blocks := by
  have h := (claim_C4_branch_work witC4).2 (by decide)
  exact ⟨h.1, h.2.1, h.2.2.1⟩

/-! ## C1: `Chain::processBlock` / `Chain::process` -/

theorem updateTargetBits_fields (x : ChainState) :
    (updateTargetBits x).blocks = x.blocks ∧
    (updateTargetBits x).nextBlockHeight = x.nextBlockHeight ∧
    (updateTargetBits x).lastBlockHash = x.lastBlockHash ∧
    (updateTargetBits x).blockStats = x.blockStats ∧
    (updateTargetBits x).pendingBlocks = x.pendingBlocks ∧
    (updateTargetBits x).pendingAccumulatedWork = x.pendingAccumulatedWork ∧
    (updateTargetBits x).branches = x.branches ∧
    (updateTargetBits x).blackListBlocks = x.blackListBlocks ∧
    (updateTargetBits x).blackListedNodeIDs = x.blackListedNodeIDs := by
  unfold updateTargetBits
  simp only []
  split_ifs <;> simp

/-- `mBlockStats.add(version, time, targetBits)` at the top of
`Chain::processBlock` (chain.cpp:1018). -/
def statsAfterAdd (c : ChainState) (b : BlockM) : List BlockStat :=
  statsAdd c.blockStats b.version b.time b.targetBits

/-- The testnet minimum-difficulty test of `Chain::processBlock`
(chain.cpp:1022): the block's time is more than 20 minutes (1200 s,
`uint32` subtraction) after the previous block's time, read from the
statistics after the `add`. -/
def useTestMinDifficulty (c : ChainState) (b : BlockM) : Prop :=
  c.isTestnet = true ∧
    1200 < (b.time + 2 ^ 32 -
      statTime (statsAfterAdd c b) ((statsAfterAdd c b).length - 2)) % 2 ^ 32

instance (c : ChainState) (b : BlockM) : Decidable (useTestMinDifficulty c b) := by
  unfold useTestMinDifficulty
  infer_instance

/-- `Chain::processBlock` (chain.cpp:1010).  `bodyOk` abstracts
`Block::process` (block.cpp not in src/), `addOk` the block-file append
and `commitOk` the output-pool commit; each failure path reverts the
statistics and the target bits identically, which the model folds into
one test.  The UTXO pool, mempool and block files are outside the model. -/
def processBlock (c : ChainState) (b : BlockM) (bodyOk addOk commitOk : Bool) :
    Bool × ChainState :=
  let stats1 := statsAfterAdd c b
  let previousTargetBits := c.targetBits
  let c1 := updateTargetBits { c with blockStats := stats1 }
  if b.targetBits ≠ c1.targetBits ∧
      ¬(useTestMinDifficulty c b ∧ b.targetBits = 0x1d00ffff) then
    (false, { c1 with
      targetBits := previousTargetBits,
      blockStats := statsRevert stats1 (c.nextBlockHeight - 1) })
  else if bodyOk && addOk && commitOk then
    (true, { c1 with
      blocks := c1.blocks ++ [b],
      nextBlockHeight := c.nextBlockHeight + 1,
      lastBlockHash := b.hash })
  else
    (false, { c1 with
      targetBits := previousTargetBits,
      blockStats := statsRevert stats1 (c.nextBlockHeight - 1) })

/-- `Chain::addBlackListedBlock` (chain.cpp:330): add the hash unless
present, keeping at most ~1024 entries by discarding the oldest. -/
def addBlackListedBlock (l : List Nat) (h : Nat) : List Nat :=
  if h ∈ l then l
  else (if 1024 < l.length then l.drop 1 else l) ++ [h]

theorem mem_addBlackListedBlock (l : List Nat) (h : Nat) :
    h ∈ addBlackListedBlock l h := by
  rw [addBlackListedBlock]
  split_ifs with h1 h2
  · exact h1
  · exact List.mem_append_right _ (List.mem_singleton.mpr rfl)
  · exact List.mem_append_right _ (List.mem_singleton.mpr rfl)

/-- One tick of `Chain::process` (chain.cpp:1254): when the head of the
pending queue is a full block, validate it; on success pop it from the
queue, on failure black-list the hash and the source node, clear the
pending queue, reset the pending accumulated work and re-evaluate the
branches. -/
def chainProcess (c : ChainState) (bodyOk addOk commitOk : Bool) : ChainState :=
  match c.pendingBlocks with
  | [] => c
  | nextPending :: rest =>
    if ¬nextPending.block.isFull then c
    else
      match processBlock c nextPending.block bodyOk addOk commitOk with
      | (true, c1) => { c1 with pendingBlocks := rest }
      | (false, c1) =>
        let c2 := { c1 with
          blackListedNodeIDs := c1.blackListedNodeIDs ++ [nextPending.requestingNode],
          blackListBlocks := addBlackListedBlock c1.blackListBlocks nextPending.block.hash,
          pendingBlocks := [],
          pendingAccumulatedWork := chainAccumulatedWork c1 }
        checkBranches c2

/-- C1 (amended): a full block at the head of the pending queue whose
`targetBits` differ from the freshly computed chain target — without the
testnet exception applying (the exception needs the time difference to be
strictly greater than 1200 s, not "at least" 20 minutes) — is rejected:
the tick leaves the block statistics, the current target bits, the tip
hash and the height unchanged and black-lists the block's hash.  `hwf`
is the chain invariant that the statistics cover exactly the chain's
blocks; `hbr` restricts to states with no competing branches (otherwise
the branch re-evaluation at the end of the tick may itself reorganise the
chain). -/
theorem claim_C1_reject_target_mismatch (c : ChainState) (pb : PendingBlockM)
    (rest : List PendingBlockM) (bodyOk addOk commitOk : Bool)
    (hpend : c.pendingBlocks = pb :: rest)
    (hfull : pb.block.isFull = true)
    (hwf : c.blockStats.length = c.nextBlockHeight)
    (hnz : 0 < c.nextBlockHeight)
    (hmismatch : pb.block.targetBits ≠
      (updateTargetBits { c with blockStats := statsAfterAdd c pb.block }).targetBits)
    (hexc : ¬(useTestMinDifficulty c pb.block ∧ pb.block.targetBits = 0x1d00ffff))
    (hbr : c.branches = []) :
    (chainProcess c bodyOk addOk commitOk).blockStats = c.blockStats ∧
    (chainProcess c bodyOk addOk commitOk).targetBits = c.targetBits ∧
    (chainProcess c bodyOk addOk commitOk).lastBlockHash = c.lastBlockHash ∧
    (chainProcess c bodyOk addOk commitOk).nextBlockHeight = c.nextBlockHeight ∧
    pb.block.hash ∈ (chainProcess c bodyOk addOk commitOk).blackListBlocks := by
  have hu := updateTargetBits_fields { c with blockStats := statsAfterAdd c pb.block }
  have hrev : statsRevert (statsAfterAdd c pb.block) (c.nextBlockHeight - 1) =
      c.blockStats := by
    unfold statsRevert statsAfterAdd statsAdd
    have : c.nextBlockHeight - 1 + 1 = c.blockStats.length := by omega
    rw [this]
    exact List.take_left c.blockStats _
  have hpr : processBlock c pb.block bodyOk addOk commitOk =
      (false, { updateTargetBits { c with blockStats := statsAfterAdd c pb.block } with
        targetBits := c.targetBits,
        blockStats := statsRevert (statsAfterAdd c pb.block) (c.nextBlockHeight - 1) }) := by
    unfold processBlock
    simp only []
    rw [if_pos ⟨hmismatch, hexc⟩]
  have hcb : ∀ d : ChainState, d.branches = [] → checkBranches d = d := by
    intro d hd
    rw [checkBranches, if_pos (by rw [hd]; rfl)]
  rw [chainProcess, hpend]
  simp only []
  rw [if_neg (by simp [hfull])]
  rw [hpr]
  simp only []
  rw [hcb]
  · exact ⟨hrev, rfl, hu.2.2.1, hu.2.1, mem_addBlackListedBlock _ _⟩
  · exact (hu.2.2.2.2.2.2.1).trans hbr

/-- The boundary state for the testnet 20-minute exception: the pending
block's time is exactly 1200 s after the previous block's time, its
`targetBits` is `0x1d00ffff` and the chain's current target differs. -/
def cexC1 : ChainState :=
  { blocks := [⟨11, 1, 800, 0x1b00ffff, 1, 100⟩, ⟨12, 1, 900, 0x1b00ffff, 1, 100⟩,
      ⟨13, 1, 1000, 0x1b00ffff, 1, 100⟩],
    nextBlockHeight := 3, lastBlockHash := 13,
    targetBits := 0x1b00ffff, maxTargetBits := 0x1d00ffff,
    blockStats := [⟨1, 800, 0x1b00ffff, 1⟩, ⟨1, 900, 0x1b00ffff, 2⟩,
      ⟨1, 1000, 0x1b00ffff, 3⟩],
    cashActive := false,
    pendingBlocks := [⟨⟨99, 1, 2200, 0x1d00ffff, 1, 100⟩, 7⟩],
    pendingAccumulatedWork := 3, branches := [],
    blackListBlocks := [], blackListedNodeIDs := [], isTestnet := true }

/-- C1 counterexample: on testnet, a full block with
`targetBits = 0x1d00ffff` submitted exactly 20 minutes (1200 s) after the
prior block's time — "at least 20 minutes" in the claim's words — is
nonetheless rejected and black-listed, because the source requires the
difference to be strictly greater than 1200 s (chain.cpp:1022). -/
theorem claim_C1_counterexample :
    (chainProcess cexC1 true true true).nextBlockHeight = 3 ∧
      (chainProcess cexC1 true true true).lastBlockHash = 13 ∧
      99 ∈ (chainProcess cexC1 true true true).blackListBlocks := by
  refine ⟨?_, ?_, ?_⟩ <;> decide

set_option maxRecDepth 10000 in
theorem claim_C1_witness :
    (chainProcess cexC1 true true true).blockStats = cexC1.blockStats ∧
    (chainProcess cexC1 true true true).targetBits = cexC1.targetBits ∧
    (chainProcess cexC1 true true true).lastBlockHash = cexC1.lastBlockHash ∧
    (chainProcess cexC1 true true true).nextBlockHeight = cexC1.nextBlockHeight ∧
    (99 : Nat) ∈ (chainProcess cexC1 true true true).blackListBlocks := by
  have h := claim_C1_reject_target_mismatch cexC1
    ⟨⟨99, 1, 2200, 0x1d00ffff, 1, 100⟩, 7⟩ [] true true true
    rfl (by decide) (by decide) (by decide) (by decide) (by decide) rfl
  exact h

/-! ## C8/C9: `ScriptInterpreter::process` (interpreter.cpp:1045)

The interpreter owns a main stack and an alternate stack of byte buffers,
an if-condition stack, and the `mValid`/`mVerified` flags.  The C++ stacks
grow at `back()`; the embedding keeps the top of each stack at the HEAD of
the list (`push_back` becomes cons, `pop_back` becomes tail,
`mIfStack.back()` becomes the list head), which preserves every size and
order property.  The script is the remaining byte list plus the stream
offset `pos` of its first byte; `sigStartOffset` mirrors the signature
start offset captured by `OP_CODESEPARATOR`. -/

structure InterpreterState where
  stack : List (List Nat)
  altStack : List (List Nat)
  ifStack : List Bool
  valid : Bool
  verified : Bool
  sigStartOffset : Nat
deriving Repr, DecidableEq, Inhabited

/-- Modelled from the spec: `ScriptInterpreter::ifStackTrue` (interpreter.hpp,
not in src/) — execution is live iff every entry of the if-condition stack
is true. -/
def ifStackTrue (st : InterpreterState) : Bool :=
  st.ifStack.all id

/-- Modelled from the spec: `popInteger` (interpreter.hpp, not in src/) reads
the top stack item as a script integer and truncates it to `unsigned int`;
the caller pops the item separately in the embedding. -/
def popIntegerVal (bs : List Nat) : Nat :=
  (((arithmeticRead bs).getD 0) % (2 ^ 32 : Int)).toNat

/-- The evaluation context of one `ScriptInterpreter::process` call: the
block/fork versions and transaction data read by the opcodes, and oracles
for the cryptographic primitives whose implementations live outside the
extracted sources (ArcMist digests, `PublicKey`/`Signature` parsing and
`checkSignature`). -/
structure ScriptCtx where
  blockVersion : Int
  enabledVersion : Int
  bip0112Active : Bool
  lockTime : Nat
  txVersion : Int
  inputSequence : Nat
  hasTransaction : Bool
  ripemd160 : List Nat → List Nat
  sha1 : List Nat → List Nat
  sha256 : List Nat → List Nat
  hash160 : List Nat → List Nat
  hash256 : List Nat → List Nat
  checkSig : List Nat → List Nat → Nat → Bool

/-- Modelled from the spec: `Transaction::LOCKTIME_THRESHOLD` (500000000)
and the `Input` sequence masks used by BIP-0065/BIP-0112 (transaction.hpp is
not in src/). -/
def LOCKTIME_THRESHOLD : Nat := 500000000

def SEQUENCE_DISABLE : Nat := 0x80000000

def SEQUENCE_TYPE : Nat := 0x400000

def SEQUENCE_LOCKTIME_MASK : Nat := 0xffff

/-- The fifteen disabled opcodes (interpreter.cpp: OP_2MUL 0x8d, OP_2DIV
0x8e, OP_MUL 0x95, OP_DIV 0x96, OP_MOD 0x97, OP_LSHIFT 0x98, OP_RSHIFT
0x99, OP_CAT 0x7e, OP_SUBSTR 0x7f, OP_LEFT 0x80, OP_RIGHT 0x81, OP_INVERT
0x83, OP_AND 0x84, OP_OR 0x85, OP_XOR 0x86); each of their switch arms sets
`mValid = false` and returns without consulting the if-condition stack. -/
def disabledOps : List Nat :=
  [0x7e, 0x7f, 0x80, 0x81, 0x83, 0x84, 0x85, 0x86,
   0x8d, 0x8e, 0x95, 0x96, 0x97, 0x98, 0x99]

/-- Outcome of one iteration of the interpreter loop: `halt` is an early
`return` from `ScriptInterpreter::process`, `cont` proceeds to the next
opcode with the remaining script bytes and their stream offset. -/
inductive StepR where
  | halt (st : InterpreterState)
  | cont (st : InterpreterState) (rest : List Nat) (pos : Nat)

def StepR.toState : StepR → InterpreterState
  | .halt st => st
  | .cont st _ _ => st

/-- The verification loop of OP_CHECKMULTISIG (interpreter.cpp:1530): each
signature is matched against the remaining public keys in order; a key that
fails a comparison is never retried.  `sigs` and `pubs` are ordered top of
stack first, which is the order the source pops them into its arrays. -/
def msVerify (check : List Nat → List Nat → Bool) :
    List (List Nat) → List (List Nat) → Bool
  | [], _ => true
  | _ :: _, [] => false
  | sig :: sigs, pub :: pubs =>
    if check pub sig then msVerify check sigs pubs
    else msVerify check (sig :: sigs) pubs

/-- The shared body of the data-push arms of `ScriptInterpreter::process`:
the single-byte pushes (opcode ≤ 0x4b, interpreter.cpp:1085) and the three
OP_PUSHDATA variants (interpreter.cpp:1706-1763) all check the declared
count against the remaining script and then either copy `cnt` bytes onto
the stack or skip them when the branch is dead.  `body` is the script after
the count field and `nextPos` the stream offset after the skipped data. -/
def execPushData (st : InterpreterState) (cnt : Nat) (body : List Nat)
    (nextPos : Nat) : StepR :=
  if body.length < cnt then .halt { st with valid := false }
  else if ifStackTrue st then
    .cont { st with stack := body.take cnt :: st.stack } (body.drop cnt) nextPos
  else .cont st (body.drop cnt) nextPos

/-- The flow-control arms of `ScriptInterpreter::process`: OP_IF 0x63 and
OP_NOTIF 0x64 (interpreter.cpp:1111; the stack size is checked before the
liveness test, a dead branch pushes `true`), OP_ELSE 0x67 and OP_ENDIF 0x68
(no liveness test), OP_VERIFY 0x69 (an untrue top stays on the stack and
returns unverified) and OP_RETURN 0x6a. -/
def execFlow (st : InterpreterState) (op : Nat) (rest : List Nat)
    (pos : Nat) : StepR :=
  if op = 0x63 then
    match st.stack with
    | [] => .halt { st with valid := false }
    | t :: r =>
      if ifStackTrue st then
        .cont { st with stack := r, ifStack := (!bufferIsZero t) :: st.ifStack } rest (pos + 1)
      else .cont { st with ifStack := true :: st.ifStack } rest (pos + 1)
  else if op = 0x64 then
    match st.stack with
    | [] => .halt { st with valid := false }
    | t :: r =>
      if ifStackTrue st then
        .cont { st with stack := r, ifStack := bufferIsZero t :: st.ifStack } rest (pos + 1)
      else .cont { st with ifStack := true :: st.ifStack } rest (pos + 1)
  else if op = 0x67 then
    match st.ifStack with
    | [] => .halt { st with valid := false }
    | b :: ir => .cont { st with ifStack := (!b) :: ir } rest (pos + 1)
  else if op = 0x68 then
    match st.ifStack with
    | [] => .halt { st with valid := false }
    | _ :: ir => .cont { st with ifStack := ir } rest (pos + 1)
  else if op = 0x69 then
    if ifStackTrue st then
      match st.stack with
      | [] => .halt { st with valid := false }
      | t :: r =>
        if bufferIsZero t then .halt { st with verified := false }
        else .cont { st with stack := r } rest (pos + 1)
    else .cont st rest (pos + 1)
  else
    -- OP_RETURN 0x6a
    if ifStackTrue st then .halt { st with verified := false }
    else .cont st rest (pos + 1)

/-- OP_TOALTSTACK 0x6b (interpreter.cpp:2504): move the top of the main
stack to the alternate stack. -/
def opToAlt (st : InterpreterState) (rest : List Nat) (pos : Nat) : StepR :=
  match st.stack with
  | [] => .halt { st with valid := false }
  | t :: r => .cont { st with stack := r, altStack := t :: st.altStack } rest (pos + 1)

/-- OP_FROMALTSTACK 0x6c (interpreter.cpp:2518): move the top of the
alternate stack back to the main stack. -/
def opFromAlt (st : InterpreterState) (rest : List Nat) (pos : Nat) : StepR :=
  match st.altStack with
  | [] => .halt { st with valid := false }
  | a :: ar => .cont { st with stack := a :: st.stack, altStack := ar } rest (pos + 1)

/-- OP_2DROP 0x6d (interpreter.cpp:2761). -/
def op2Drop (st : InterpreterState) (rest : List Nat) (pos : Nat) : StepR :=
  match st.stack with
  | _ :: _ :: r => .cont { st with stack := r } rest (pos + 1)
  | _ => .halt { st with valid := false }

/-- OP_2DUP 0x6e (interpreter.cpp:2777). -/
def op2Dup (st : InterpreterState) (rest : List Nat) (pos : Nat) : StepR :=
  match st.stack with
  | a :: b :: r => .cont { st with stack := a :: b :: a :: b :: r } rest (pos + 1)
  | _ => .halt { st with valid := false }

/-- OP_3DUP 0x6f (interpreter.cpp:2798): the source tests only 2 items
before touching the third; the out-of-bounds iterator walk on a 2-item
stack is modelled as an invalid halt. -/
def op3Dup (st : InterpreterState) (rest : List Nat) (pos : Nat) : StepR :=
  match st.stack with
  | a :: b :: c :: r => .cont { st with stack := a :: b :: c :: a :: b :: c :: r } rest (pos + 1)
  | _ => .halt { st with valid := false }

/-- OP_2OVER 0x70 (interpreter.cpp:2821). -/
def op2Over (st : InterpreterState) (rest : List Nat) (pos : Nat) : StepR :=
  match st.stack with
  | a :: b :: c :: d :: r => .cont { st with stack := c :: d :: a :: b :: c :: d :: r } rest (pos + 1)
  | _ => .halt { st with valid := false }

/-- OP_2ROT 0x71 (interpreter.cpp:2844). -/
def op2Rot (st : InterpreterState) (rest : List Nat) (pos : Nat) : StepR :=
  match st.stack with
  | a :: b :: c :: d :: e :: f :: r =>
    .cont { st with stack := e :: f :: a :: b :: c :: d :: r } rest (pos + 1)
  | _ => .halt { st with valid := false }

/-- OP_2SWAP 0x72 (interpreter.cpp:2874): the source tests only 2 items
before touching the fourth; the out-of-bounds walk is modelled as an
invalid halt. -/
def op2Swap (st : InterpreterState) (rest : List Nat) (pos : Nat) : StepR :=
  match st.stack with
  | a :: b :: c :: d :: r => .cont { st with stack := c :: d :: a :: b :: r } rest (pos + 1)
  | _ => .halt { st with valid := false }

/-- OP_IFDUP 0x73 (interpreter.cpp:2547): duplicate the top item when it is
not zero. -/
def opIfDup (st : InterpreterState) (rest : List Nat) (pos : Nat) : StepR :=
  match st.stack with
  | [] => .halt { st with valid := false }
  | t :: r =>
    if bufferIsZero t then .cont st rest (pos + 1)
    else .cont { st with stack := t :: t :: r } rest (pos + 1)

/-- OP_DEPTH 0x74 (interpreter.cpp:2561): the size is captured before the
push. -/
def opDepth (st : InterpreterState) (rest : List Nat) (pos : Nat) : StepR :=
  .cont { st with stack := arithmeticWrite (st.stack.length : Int) :: st.stack } rest (pos + 1)

/-- The first group of stack-manipulation arms of
`ScriptInterpreter::process` (OP_TOALTSTACK 0x6b … OP_DEPTH 0x74).  Every
arm in the source starts with the same `ifStackTrue` skip, hoisted here;
pattern-match failures in the arms are exactly the failed `checkStackSize`
calls. -/
def execStackAlt (st : InterpreterState) (op : Nat) (rest : List Nat)
    (pos : Nat) : StepR :=
  if ifStackTrue st = false then .cont st rest (pos + 1)
  else if op = 0x6b then opToAlt st rest pos
  else if op = 0x6c then opFromAlt st rest pos
  else if op = 0x6d then op2Drop st rest pos
  else if op = 0x6e then op2Dup st rest pos
  else if op = 0x6f then op3Dup st rest pos
  else if op = 0x70 then op2Over st rest pos
  else if op = 0x71 then op2Rot st rest pos
  else if op = 0x72 then op2Swap st rest pos
  else if op = 0x73 then opIfDup st rest pos
  else opDepth st rest pos

/-- OP_DROP 0x75 (interpreter.cpp:2574). -/
def opDrop (st : InterpreterState) (rest : List Nat) (pos : Nat) : StepR :=
  match st.stack with
  | [] => .halt { st with valid := false }
  | _ :: r => .cont { st with stack := r } rest (pos + 1)

/-- OP_DUP 0x76 (interpreter.cpp:2533). -/
def opDup (st : InterpreterState) (rest : List Nat) (pos : Nat) : StepR :=
  match st.stack with
  | [] => .halt { st with valid := false }
  | t :: r => .cont { st with stack := t :: t :: r } rest (pos + 1)

/-- OP_NIP 0x77 (interpreter.cpp:2587): remove the second-to-top item. -/
def opNip (st : InterpreterState) (rest : List Nat) (pos : Nat) : StepR :=
  match st.stack with
  | a :: _ :: r => .cont { st with stack := a :: r } rest (pos + 1)
  | _ => .halt { st with valid := false }

/-- OP_OVER 0x78 (interpreter.cpp:2606). -/
def opOver (st : InterpreterState) (rest : List Nat) (pos : Nat) : StepR :=
  match st.stack with
  | a :: b :: r => .cont { st with stack := b :: a :: b :: r } rest (pos + 1)
  | _ => .halt { st with valid := false }

/-- OP_PICK 0x79 (interpreter.cpp:2625): pop `n` (truncated to
`unsigned int`), copy the item `n` back onto the top.  The source checks
`checkStackSize(n)` but the element access needs `n < size`, so `n = size`
walks the iterator out of bounds — modelled as an invalid halt. -/
def opPick (st : InterpreterState) (rest : List Nat) (pos : Nat) : StepR :=
  match st.stack with
  | [] => .halt { st with valid := false }
  | t :: r =>
    match arithmeticRead t with
    | none => .halt { st with valid := false }
    | some n =>
      if r.length < (n % (2 ^ 32 : Int)).toNat then .halt { st with valid := false }
      else
        match r.get? (n % (2 ^ 32 : Int)).toNat with
        | some item => .cont { st with stack := item :: r } rest (pos + 1)
        | none => .halt { st with valid := false }

/-- OP_ROLL 0x7a (interpreter.cpp:2665): pop `n`, move the item `n` back to
the top (the initial size test is 2); removing index `n` is
`take n ++ drop (n + 1)`. -/
def opRoll (st : InterpreterState) (rest : List Nat) (pos : Nat) : StepR :=
  match st.stack with
  | t :: s :: r =>
    match arithmeticRead t with
    | none => .halt { st with valid := false }
    | some n =>
      if (s :: r).length < (n % (2 ^ 32 : Int)).toNat then .halt { st with valid := false }
      else
        match (s :: r).get? (n % (2 ^ 32 : Int)).toNat with
        | some item =>
          .cont { st with stack :=
            item :: ((s :: r).take (n % (2 ^ 32 : Int)).toNat ++
              (s :: r).drop ((n % (2 ^ 32 : Int)).toNat + 1)) } rest (pos + 1)
        | none => .halt { st with valid := false }
  | _ => .halt { st with valid := false }

/-- OP_ROT 0x7b (interpreter.cpp:2697). -/
def opRot (st : InterpreterState) (rest : List Nat) (pos : Nat) : StepR :=
  match st.stack with
  | a :: b :: c :: r => .cont { st with stack := c :: a :: b :: r } rest (pos + 1)
  | _ => .halt { st with valid := false }

/-- OP_SWAP 0x7c (interpreter.cpp:2719). -/
def opSwap (st : InterpreterState) (rest : List Nat) (pos : Nat) : StepR :=
  match st.stack with
  | a :: b :: r => .cont { st with stack := b :: a :: r } rest (pos + 1)
  | _ => .halt { st with valid := false }

/-- OP_TUCK 0x7d (interpreter.cpp:2740). -/
def opTuck (st : InterpreterState) (rest : List Nat) (pos : Nat) : StepR :=
  match st.stack with
  | a :: b :: r => .cont { st with stack := a :: b :: a :: r } rest (pos + 1)
  | _ => .halt { st with valid := false }

/-- OP_SIZE 0x82 (interpreter.cpp:2936): push the length of the top item
without popping it. -/
def opSize (st : InterpreterState) (rest : List Nat) (pos : Nat) : StepR :=
  match st.stack with
  | [] => .halt { st with valid := false }
  | t :: r =>
    .cont { st with stack := arithmeticWrite (t.length : Int) :: t :: r } rest (pos + 1)

/-- The second group of stack-manipulation arms of
`ScriptInterpreter::process` (OP_DROP 0x75 … OP_TUCK 0x7d, plus OP_SIZE
0x82), with the per-arm `ifStackTrue` skip hoisted. -/
def execStackMore (st : InterpreterState) (op : Nat) (rest : List Nat)
    (pos : Nat) : StepR :=
  if ifStackTrue st = false then .cont st rest (pos + 1)
  else if op = 0x75 then opDrop st rest pos
  else if op = 0x76 then opDup st rest pos
  else if op = 0x77 then opNip st rest pos
  else if op = 0x78 then opOver st rest pos
  else if op = 0x79 then opPick st rest pos
  else if op = 0x7a then opRoll st rest pos
  else if op = 0x7b then opRot st rest pos
  else if op = 0x7c then opSwap st rest pos
  else if op = 0x7d then opTuck st rest pos
  else opSize st rest pos

/-- OP_EQUAL 0x87 / OP_EQUALVERIFY 0x88 (interpreter.cpp:1210: the top two
buffers are compared byte-for-byte and popped; EQUALVERIFY fails
verification on mismatch) and the reserved opcodes OP_RESERVED 0x50,
OP_VER 0x62, OP_VERIF 0x65, OP_VERNOTIF 0x66, OP_RESERVED1 0x89 and
OP_RESERVED2 0x8a (interpreter.cpp:2975: invalid when executed, skipped in
a dead branch). -/
def execEqualRes (st : InterpreterState) (op : Nat) (rest : List Nat)
    (pos : Nat) : StepR :=
  if ifStackTrue st = false then .cont st rest (pos + 1)
  else if op = 0x87 ∨ op = 0x88 then
    match st.stack with
    | a :: b :: r =>
      if a = b then
        if op = 0x87 then .cont { st with stack := [1] :: r } rest (pos + 1)
        else .cont { st with stack := r } rest (pos + 1)
      else
        if op = 0x87 then .cont { st with stack := [] :: r } rest (pos + 1)
        else .halt { st with stack := r, verified := false }
    | _ => .halt { st with valid := false }
  else .halt { st with valid := false }

/-- The unary arithmetic arms of `ScriptInterpreter::process`
(interpreter.cpp:1851-2009): OP_1ADD 0x8b, OP_1SUB 0x8c, OP_NEGATE 0x8f,
OP_ABS 0x90 (rewrites the top only when it is negative), OP_NOT 0x91 and
OP_0NOTEQUAL 0x92.  A failed `arithmeticRead` is an invalid halt. -/
def execArithUnary (st : InterpreterState) (op : Nat) (rest : List Nat)
    (pos : Nat) : StepR :=
  if ifStackTrue st = false then .cont st rest (pos + 1)
  else
    match st.stack with
    | [] => .halt { st with valid := false }
    | t :: r =>
      match arithmeticRead t with
      | none => .halt { st with valid := false }
      | some v =>
        if op = 0x8b then .cont { st with stack := arithmeticWrite (v + 1) :: r } rest (pos + 1)
        else if op = 0x8c then .cont { st with stack := arithmeticWrite (v - 1) :: r } rest (pos + 1)
        else if op = 0x8f then .cont { st with stack := arithmeticWrite (-v) :: r } rest (pos + 1)
        else if op = 0x90 then
          .cont { st with stack := (if v < 0 then arithmeticWrite (-v) else t) :: r } rest (pos + 1)
        else if op = 0x91 then
          .cont { st with stack := (if v = 0 then [1] else []) :: r } rest (pos + 1)
        else .cont { st with stack := (if v ≠ 0 then [1] else []) :: r } rest (pos + 1)

/-- The two-operand arithmetic arms that read the top item first
(interpreter.cpp:2012-2066 and 2092-2232): OP_ADD 0x93 and OP_SUB 0x94
(`b` on top, result replaces the second item), OP_BOOLAND 0x9a, OP_BOOLOR
0x9b, OP_NUMEQUAL 0x9c and OP_NUMNOTEQUAL 0x9e (`a` on top), and
OP_NUMEQUALVERIFY 0x9d (pops both, fails verification on mismatch).  The
second read happens after the first pop, so its failure halts with the top
already removed. -/
def execArithBinary (st : InterpreterState) (op : Nat) (rest : List Nat)
    (pos : Nat) : StepR :=
  if ifStackTrue st = false then .cont st rest (pos + 1)
  else
    match st.stack with
    | t1 :: t2 :: r =>
      match arithmeticRead t1 with
      | none => .halt { st with valid := false }
      | some x =>
        match arithmeticRead t2 with
        | none => .halt { st with stack := t2 :: r, valid := false }
        | some y =>
          -- for OP_ADD/OP_SUB the top is `b` and the second `a`; for the
          -- boolean and equality arms the top is `a` and the second `b`
          if op = 0x93 then .cont { st with stack := arithmeticWrite (y + x) :: r } rest (pos + 1)
          else if op = 0x94 then .cont { st with stack := arithmeticWrite (y - x) :: r } rest (pos + 1)
          else if op = 0x9a then
            .cont { st with stack := (if x ≠ 0 ∧ y ≠ 0 then [1] else []) :: r } rest (pos + 1)
          else if op = 0x9b then
            .cont { st with stack := (if x ≠ 0 ∨ y ≠ 0 then [1] else []) :: r } rest (pos + 1)
          else if op = 0x9c then
            .cont { st with stack := (if x = y then [1] else []) :: r } rest (pos + 1)
          else if op = 0x9d then
            if x ≠ y then .halt { st with stack := r, verified := false }
            else .cont { st with stack := r } rest (pos + 1)
          else .cont { st with stack := (if x ≠ y then [1] else []) :: r } rest (pos + 1)
    | _ => .halt { st with valid := false }

/-- The comparison arms (interpreter.cpp:2235-2502): OP_LESSTHAN 0x9f,
OP_GREATERTHAN 0xa0, OP_LESSTHANOREQUAL 0xa1, OP_GREATERTHANOREQUAL 0xa2
(`b` on top, `a` second), OP_MIN 0xa3 and OP_MAX 0xa4 (`a` on top, `b`
second, the result re-encoded), and OP_WITHIN 0xa5 (`max` on top, then
`min`, then `x`; left-inclusive). -/
def execArithCompare (st : InterpreterState) (op : Nat) (rest : List Nat)
    (pos : Nat) : StepR :=
  if ifStackTrue st = false then .cont st rest (pos + 1)
  else if op = 0xa5 then
    match st.stack with
    | t1 :: t2 :: t3 :: r =>
      match arithmeticRead t1 with
      | none => .halt { st with valid := false }
      | some mx =>
        match arithmeticRead t2 with
        | none => .halt { st with stack := t2 :: t3 :: r, valid := false }
        | some mn =>
          match arithmeticRead t3 with
          | none => .halt { st with stack := t3 :: r, valid := false }
          | some x =>
            .cont { st with stack := (if mn ≤ x ∧ x < mx then [1] else []) :: r } rest (pos + 1)
    | _ => .halt { st with valid := false }
  else
    match st.stack with
    | t1 :: t2 :: r =>
      match arithmeticRead t1 with
      | none => .halt { st with valid := false }
      | some x =>
        match arithmeticRead t2 with
        | none => .halt { st with stack := t2 :: r, valid := false }
        | some y =>
          if op = 0x9f then
            .cont { st with stack := (if y < x then [1] else []) :: r } rest (pos + 1)
          else if op = 0xa0 then
            .cont { st with stack := (if x < y then [1] else []) :: r } rest (pos + 1)
          else if op = 0xa1 then
            .cont { st with stack := (if y ≤ x then [1] else []) :: r } rest (pos + 1)
          else if op = 0xa2 then
            .cont { st with stack := (if x ≤ y then [1] else []) :: r } rest (pos + 1)
          else if op = 0xa3 then
            .cont { st with stack := arithmeticWrite (if x < y then x else y) :: r } rest (pos + 1)
          else .cont { st with stack := arithmeticWrite (if y < x then x else y) :: r } rest (pos + 1)
    | _ => .halt { st with valid := false }

/-- The hashing arms OP_RIPEMD160 0xa6 … OP_HASH256 0xaa
(interpreter.cpp:1253-1387, each pops the top and pushes the digest from
the matching oracle), OP_CODESEPARATOR 0xab (records the offset after its
own opcode byte) and OP_CHECKSIG 0xac / OP_CHECKSIGVERIFY 0xad
(interpreter.cpp:1394: public key on top, then the signature; both popped,
the oracle abstracts `PublicKey`/`Signature` parsing and
`checkSignature`). -/
def execCrypto (ctx : ScriptCtx) (st : InterpreterState) (op : Nat)
    (rest : List Nat) (pos : Nat) : StepR :=
  if ifStackTrue st = false then .cont st rest (pos + 1)
  else if op = 0xab then .cont { st with sigStartOffset := pos + 1 } rest (pos + 1)
  else if op = 0xac ∨ op = 0xad then
    match st.stack with
    | pk :: sg :: r =>
      if ctx.checkSig pk sg st.sigStartOffset then
        if op = 0xac then .cont { st with stack := [1] :: r } rest (pos + 1)
        else .cont { st with stack := r } rest (pos + 1)
      else
        if op = 0xac then .cont { st with stack := [] :: r } rest (pos + 1)
        else .halt { st with stack := r, verified := false }
    | _ => .halt { st with valid := false }
  else
    match st.stack with
    | [] => .halt { st with valid := false }
    | t :: r =>
      if op = 0xa6 then .cont { st with stack := ctx.ripemd160 t :: r } rest (pos + 1)
      else if op = 0xa7 then .cont { st with stack := ctx.sha1 t :: r } rest (pos + 1)
      else if op = 0xa8 then .cont { st with stack := ctx.sha256 t :: r } rest (pos + 1)
      else if op = 0xa9 then .cont { st with stack := ctx.hash160 t :: r } rest (pos + 1)
      else .cont { st with stack := ctx.hash256 t :: r } rest (pos + 1)

/-- OP_CHECKMULTISIG 0xae / OP_CHECKMULTISIGVERIFY 0xaf
(interpreter.cpp:1449): pop the public-key count, the keys, the signature
count, the signatures, and the historical extra item, then run the ordered
matching loop.  `popInteger` on an exhausted stack (the counts can consume
everything the initial `checkStackSize(4)` guaranteed) is modelled as an
invalid halt. -/
def execMultiSig (ctx : ScriptCtx) (st : InterpreterState) (op : Nat)
    (rest : List Nat) (pos : Nat) : StepR :=
  if ifStackTrue st = false then .cont st rest (pos + 1)
  else if st.stack.length < 4 then .halt { st with valid := false }
  else
    match st.stack with
    | [] => .halt { st with valid := false }
    | kc :: r1 =>
      if r1.length < popIntegerVal kc then .halt { st with valid := false }
      -- the signature-count item: head of the stack once the keys are popped
      else if r1.length = popIntegerVal kc then .halt { st with valid := false }
      else if (r1.drop (popIntegerVal kc)).tail.length <
          popIntegerVal ((r1.drop (popIntegerVal kc)).headD []) + 1 then
        .halt { st with valid := false }
      else
        if msVerify (fun pk sg => ctx.checkSig pk sg st.sigStartOffset)
            ((r1.drop (popIntegerVal kc)).tail.take
              (popIntegerVal ((r1.drop (popIntegerVal kc)).headD [])))
            (r1.take (popIntegerVal kc)) then
          if op = 0xae then
            .cont { st with stack := [1] :: ((r1.drop (popIntegerVal kc)).tail.drop
              (popIntegerVal ((r1.drop (popIntegerVal kc)).headD []))).drop 1 } rest (pos + 1)
          else .cont { st with stack := ((r1.drop (popIntegerVal kc)).tail.drop
            (popIntegerVal ((r1.drop (popIntegerVal kc)).headD []))).drop 1 } rest (pos + 1)
        else
          if op = 0xae then
            .cont { st with stack := [] :: ((r1.drop (popIntegerVal kc)).tail.drop
              (popIntegerVal ((r1.drop (popIntegerVal kc)).headD []))).drop 1 } rest (pos + 1)
          else .halt { st with
            stack := (((r1.drop (popIntegerVal kc)).tail.drop
              (popIntegerVal ((r1.drop (popIntegerVal kc)).headD []))).drop 1),
            verified := false }

/-- OP_CHECKLOCKTIMEVERIFY 0xb1 (BIP-0065, interpreter.cpp:1564, active
only from block/fork version 4) and OP_CHECKSEQUENCEVERIFY 0xb2 (BIP-0112,
interpreter.cpp:1633, active only when the soft fork is).  Both inspect the
top item without popping it; a negative value or a failed read is an
invalid halt, the lock-time/sequence comparisons fail verification. -/
def execLockTime (ctx : ScriptCtx) (st : InterpreterState) (op : Nat)
    (rest : List Nat) (pos : Nat) : StepR :=
  if op = 0xb1 then
    if ctx.blockVersion < 4 ∨ ctx.enabledVersion < 4 then .cont st rest (pos + 1)
    else if ifStackTrue st then
      match st.stack with
      | [] => .halt { st with valid := false }
      | t :: _ =>
        match arithmeticRead t with
        | none => .halt { st with valid := false }
        | some v =>
          if v < 0 then .halt { st with valid := false }
          else if ctx.inputSequence = 0xffffffff then .halt { st with verified := false }
          else if ¬ctx.hasTransaction then .halt { st with verified := false }
          else if (v.toNat % 2 ^ 32 < LOCKTIME_THRESHOLD ∧ LOCKTIME_THRESHOLD < ctx.lockTime) ∨
              (LOCKTIME_THRESHOLD < v.toNat % 2 ^ 32 ∧ ctx.lockTime < LOCKTIME_THRESHOLD) then
            .halt { st with verified := false }
          else if ctx.lockTime < v.toNat % 2 ^ 32 then .halt { st with verified := false }
          else .cont st rest (pos + 1)
    else .cont st rest (pos + 1)
  else
    -- OP_CHECKSEQUENCEVERIFY 0xb2
    if ¬ctx.bip0112Active then .cont st rest (pos + 1)
    else if ifStackTrue st then
      match st.stack with
      | [] => .halt { st with valid := false }
      | t :: _ =>
        match arithmeticRead t with
        | none => .halt { st with valid := false }
        | some v =>
          if v < 0 then .halt { st with valid := false }
          else if v.toNat &&& SEQUENCE_DISABLE = 0 then
            if ctx.txVersion < 2 then .halt { st with verified := false }
            else if ctx.inputSequence &&& SEQUENCE_DISABLE ≠ 0 then
              .halt { st with verified := false }
            else if v.toNat &&& SEQUENCE_TYPE ≠ ctx.inputSequence &&& SEQUENCE_TYPE then
              .halt { st with verified := false }
            else if ctx.inputSequence &&& SEQUENCE_LOCKTIME_MASK <
                v.toNat &&& SEQUENCE_LOCKTIME_MASK then
              .halt { st with verified := false }
            else .cont st rest (pos + 1)
          else .cont st rest (pos + 1)
    else .cont st rest (pos + 1)

/-- The constant-push region of the switch (opcodes 0x00 … 0x62): OP_0, the
single-byte pushes, the three OP_PUSHDATA variants, OP_1NEGATE, OP_1 …
OP_16 and OP_NOP; OP_RESERVED 0x50 and OP_VER 0x62 fall through to the
reserved handling. -/
def execOpConstants (st : InterpreterState) (op : Nat) (rest : List Nat)
    (pos : Nat) : StepR :=
  -- OP_0: push an empty value
  if op = 0x00 then
    if ifStackTrue st then .cont { st with stack := [] :: st.stack } rest (pos + 1)
    else .cont st rest (pos + 1)
  -- single-byte push: opCode ≤ MAX_SINGLE_BYTE_PUSH_DATA_CODE (0x4b)
  else if op ≤ 0x4b then execPushData st op rest (pos + 1 + op)
  -- OP_PUSHDATA1 0x4c: one count byte follows
  else if op = 0x4c then
    execPushData st (rest.headD 0) (rest.drop 1) (pos + 2 + rest.headD 0)
  -- OP_PUSHDATA2 0x4d: two little-endian count bytes follow
  else if op = 0x4d then
    execPushData st (rest.headD 0 + 256 * (rest.drop 1).headD 0) (rest.drop 2)
      (pos + 3 + (rest.headD 0 + 256 * (rest.drop 1).headD 0))
  -- OP_PUSHDATA4 0x4e: four little-endian count bytes follow
  else if op = 0x4e then
    execPushData st
      (rest.headD 0 + 256 * (rest.drop 1).headD 0 + 65536 * (rest.drop 2).headD 0 +
        16777216 * (rest.drop 3).headD 0)
      (rest.drop 4)
      (pos + 5 + (rest.headD 0 + 256 * (rest.drop 1).headD 0 +
        65536 * (rest.drop 2).headD 0 + 16777216 * (rest.drop 3).headD 0))
  -- OP_1NEGATE 0x4f
  else if op = 0x4f then
    if ifStackTrue st then
      .cont { st with stack := arithmeticWrite (-1) :: st.stack } rest (pos + 1)
    else .cont st rest (pos + 1)
  -- OP_1 … OP_16 (0x51 … 0x60): push the single byte 1 … 16
  else if 0x51 ≤ op ∧ op ≤ 0x60 then
    if ifStackTrue st then
      .cont { st with stack := [op - 0x50] :: st.stack } rest (pos + 1)
    else .cont st rest (pos + 1)
  -- OP_NOP 0x61
  else if op = 0x61 then .cont st rest (pos + 1)
  -- OP_RESERVED 0x50 / OP_VER 0x62
  else execEqualRes st op rest pos

/-- One iteration of the body of `ScriptInterpreter::process`
(interpreter.cpp:1073-3001) after the two limit checks: dispatch on the
opcode byte `op` already read from the stream.  `rest` is the script after
`op` and `pos` is the offset of `op`, so the read offset the source would
report after consuming the opcode byte is `pos + 1`.  Opcode byte values
are modelled from the spec (interpreter.hpp is not in src/; they are the
standard Bitcoin assignments, and the stack-manipulation values are
confirmed by the inline comments in interpreter.cpp, e.g. OP_2DROP 0x6d …
OP_TUCK 0x7d).  The big C++ switch is split into the `exec…` groups above
and routed here by numeric range; the fifteen disabled opcodes each set
`mValid = false` and return without consulting the if-condition stack, and
an opcode without a switch case (there is no `default`) does nothing. -/
def execOp (ctx : ScriptCtx) (st : InterpreterState) (op : Nat)
    (rest : List Nat) (pos : Nat) : StepR :=
  if op ≤ 0x62 then execOpConstants st op rest pos
  else if op ≤ 0x6a then
    -- OP_VERIF 0x65 / OP_VERNOTIF 0x66 share the reserved handling
    (if op = 0x65 ∨ op = 0x66 then execEqualRes st op rest pos
     else execFlow st op rest pos)
  else if op ≤ 0x74 then execStackAlt st op rest pos
  else if op ≤ 0x82 then
    -- disabled: OP_CAT 0x7e, OP_SUBSTR 0x7f, OP_LEFT 0x80, OP_RIGHT 0x81
    (if op = 0x7e ∨ op = 0x7f ∨ op = 0x80 ∨ op = 0x81 then .halt { st with valid := false }
     else execStackMore st op rest pos)
  else if op ≤ 0x92 then
    -- disabled: OP_INVERT 0x83, OP_AND 0x84, OP_OR 0x85, OP_XOR 0x86,
    -- OP_2MUL 0x8d, OP_2DIV 0x8e
    (if op = 0x83 ∨ op = 0x84 ∨ op = 0x85 ∨ op = 0x86 ∨ op = 0x8d ∨ op = 0x8e then
       .halt { st with valid := false }
     else if op = 0x87 ∨ op = 0x88 ∨ op = 0x89 ∨ op = 0x8a then execEqualRes st op rest pos
     else execArithUnary st op rest pos)
  else if op ≤ 0x9e then
    -- disabled: OP_MUL 0x95, OP_DIV 0x96, OP_MOD 0x97, OP_LSHIFT 0x98,
    -- OP_RSHIFT 0x99
    (if op = 0x95 ∨ op = 0x96 ∨ op = 0x97 ∨ op = 0x98 ∨ op = 0x99 then
       .halt { st with valid := false }
     else execArithBinary st op rest pos)
  else if op ≤ 0xa5 then execArithCompare st op rest pos
  else if op ≤ 0xad then execCrypto ctx st op rest pos
  else if op ≤ 0xaf then execMultiSig ctx st op rest pos
  else if op = 0xb1 ∨ op = 0xb2 then execLockTime ctx st op rest pos
  -- OP_NOP1 0xb0, OP_NOP4 … OP_NOP10 (0xb3 … 0xb9), and any opcode without a
  -- switch case: nothing happens
  else .cont st rest (pos + 1)

/-- The interpreter loop of `ScriptInterpreter::process` (interpreter.cpp:
1055): before each opcode the main stack is required to hold at most 1000
items and the if-condition stack at most 20, otherwise the script is marked
invalid and evaluation stops.  `fuel` bounds the number of iterations; every
iteration consumes at least the opcode byte, so any `fuel > script.length`
is enough for the loop to run to completion. -/
def runScript (ctx : ScriptCtx) : Nat → InterpreterState → List Nat → Nat → InterpreterState
  | 0, st, _, _ => st
  | _ + 1, st, [], _ => st
  | fuel + 1, st, op :: rest, pos =>
    if 1000 < st.stack.length then { st with valid := false }
    else if 20 < st.ifStack.length then { st with valid := false }
    else
      match execOp ctx st op rest pos with
      | .halt st2 => st2
      | .cont st2 rest2 pos2 => runScript ctx fuel st2 rest2 pos2

/-- A fresh interpreter (`ScriptInterpreter::clear`): empty stacks, valid and
verified. -/
def initState : InterpreterState :=
  ⟨[], [], [], true, true, 0⟩

/-- Run one script from a fresh interpreter with enough fuel for every byte. -/
def scriptProcess (ctx : ScriptCtx) (script : List Nat) : InterpreterState :=
  runScript ctx (script.length + 1) initState script 0

/-- One interpreter iteration grows the main stack by at most 3 items
(OP_3DUP) and the if-condition stack by at most 1 (OP_IF / OP_NOTIF). -/
def stepOk (st : InterpreterState) (s : StepR) : Prop :=
  s.toState.stack.length ≤ st.stack.length + 3 ∧
    s.toState.ifStack.length ≤ st.ifStack.length + 1

theorem execPushData_bound (st : InterpreterState) (cnt : Nat) (body : List Nat)
    (nextPos : Nat) : stepOk st (execPushData st cnt body nextPos) := by
  unfold execPushData
  repeat' split
  all_goals simp_all only [stepOk, StepR.toState, List.length_cons, List.length_nil,
    List.length_take, List.length_drop, List.length_append]
  all_goals omega

theorem execFlow_bound (st : InterpreterState) (op : Nat) (rest : List Nat)
    (pos : Nat) : stepOk st (execFlow st op rest pos) := by
  unfold execFlow
  repeat' split
  all_goals simp_all only [stepOk, StepR.toState, List.length_cons, List.length_nil,
    List.length_take, List.length_drop, List.length_append]
  all_goals omega

theorem opToAlt_bound (st : InterpreterState) (rest : List Nat) (pos : Nat) :
    stepOk st (opToAlt st rest pos) := by
  unfold opToAlt
  repeat' split
  all_goals simp_all only [stepOk, StepR.toState, List.length_cons]
  all_goals omega

theorem opFromAlt_bound (st : InterpreterState) (rest : List Nat) (pos : Nat) :
    stepOk st (opFromAlt st rest pos) := by
  unfold opFromAlt
  repeat' split
  all_goals simp_all only [stepOk, StepR.toState, List.length_cons]
  all_goals omega

theorem op2Drop_bound (st : InterpreterState) (rest : List Nat) (pos : Nat) :
    stepOk st (op2Drop st rest pos) := by
  unfold op2Drop
  repeat' split
  all_goals simp_all only [stepOk, StepR.toState, List.length_cons]
  all_goals omega

theorem op2Dup_bound (st : InterpreterState) (rest : List Nat) (pos : Nat) :
    stepOk st (op2Dup st rest pos) := by
  unfold op2Dup
  repeat' split
  all_goals simp_all only [stepOk, StepR.toState, List.length_cons]
  all_goals omega

theorem op3Dup_bound (st : InterpreterState) (rest : List Nat) (pos : Nat) :
    stepOk st (op3Dup st rest pos) := by
  unfold op3Dup
  repeat' split
  all_goals simp_all only [stepOk, StepR.toState, List.length_cons]
  all_goals omega

theorem op2Over_bound (st : InterpreterState) (rest : List Nat) (pos : Nat) :
    stepOk st (op2Over st rest pos) := by
  unfold op2Over
  repeat' split
  all_goals simp_all only [stepOk, StepR.toState, List.length_cons]
  all_goals omega

theorem op2Rot_bound (st : InterpreterState) (rest : List Nat) (pos : Nat) :
    stepOk st (op2Rot st rest pos) := by
  unfold op2Rot
  repeat' split
  all_goals simp_all only [stepOk, StepR.toState, List.length_cons]
  all_goals omega

theorem op2Swap_bound (st : InterpreterState) (rest : List Nat) (pos : Nat) :
    stepOk st (op2Swap st rest pos) := by
  unfold op2Swap
  repeat' split
  all_goals simp_all only [stepOk, StepR.toState, List.length_cons]
  all_goals omega

theorem opIfDup_bound (st : InterpreterState) (rest : List Nat) (pos : Nat) :
    stepOk st (opIfDup st rest pos) := by
  unfold opIfDup
  repeat' split
  all_goals simp_all only [stepOk, StepR.toState, List.length_cons]
  all_goals omega

theorem opDepth_bound (st : InterpreterState) (rest : List Nat) (pos : Nat) :
    stepOk st (opDepth st rest pos) := by
  unfold opDepth
  simp only [stepOk, StepR.toState, List.length_cons]
  omega

theorem execStackAlt_bound (st : InterpreterState) (op : Nat) (rest : List Nat)
    (pos : Nat) : stepOk st (execStackAlt st op rest pos) := by
  unfold execStackAlt
  repeat' split
  all_goals first
    | exact opToAlt_bound _ _ _
    | exact opFromAlt_bound _ _ _
    | exact op2Drop_bound _ _ _
    | exact op2Dup_bound _ _ _
    | exact op3Dup_bound _ _ _
    | exact op2Over_bound _ _ _
    | exact op2Rot_bound _ _ _
    | exact op2Swap_bound _ _ _
    | exact opIfDup_bound _ _ _
    | exact opDepth_bound _ _ _
    | (simp only [stepOk, StepR.toState]; omega)

theorem opDrop_bound (st : InterpreterState) (rest : List Nat) (pos : Nat) :
    stepOk st (opDrop st rest pos) := by
  unfold opDrop
  repeat' split
  all_goals simp_all only [stepOk, StepR.toState, List.length_cons]
  all_goals omega

theorem opDup_bound (st : InterpreterState) (rest : List Nat) (pos : Nat) :
    stepOk st (opDup st rest pos) := by
  unfold opDup
  repeat' split
  all_goals simp_all only [stepOk, StepR.toState, List.length_cons]
  all_goals omega

theorem opNip_bound (st : InterpreterState) (rest : List Nat) (pos : Nat) :
    stepOk st (opNip st rest pos) := by
  unfold opNip
  repeat' split
  all_goals simp_all only [stepOk, StepR.toState, List.length_cons]
  all_goals omega

theorem opOver_bound (st : InterpreterState) (rest : List Nat) (pos : Nat) :
    stepOk st (opOver st rest pos) := by
  unfold opOver
  repeat' split
  all_goals simp_all only [stepOk, StepR.toState, List.length_cons]
  all_goals omega

theorem opPick_bound (st : InterpreterState) (rest : List Nat) (pos : Nat) :
    stepOk st (opPick st rest pos) := by
  unfold opPick
  repeat' split
  all_goals simp_all only [stepOk, StepR.toState, List.length_cons]
  all_goals omega

theorem opRoll_bound (st : InterpreterState) (rest : List Nat) (pos : Nat) :
    stepOk st (opRoll st rest pos) := by
  unfold opRoll
  repeat' split
  all_goals simp_all only [stepOk, StepR.toState, List.length_cons,
    List.length_take, List.length_drop, List.length_append]
  all_goals omega

theorem opRot_bound (st : InterpreterState) (rest : List Nat) (pos : Nat) :
    stepOk st (opRot st rest pos) := by
  unfold opRot
  repeat' split
  all_goals simp_all only [stepOk, StepR.toState, List.length_cons]
  all_goals omega

theorem opSwap_bound (st : InterpreterState) (rest : List Nat) (pos : Nat) :
    stepOk st (opSwap st rest pos) := by
  unfold opSwap
  repeat' split
  all_goals simp_all only [stepOk, StepR.toState, List.length_cons]
  all_goals omega

theorem opTuck_bound (st : InterpreterState) (rest : List Nat) (pos : Nat) :
    stepOk st (opTuck st rest pos) := by
  unfold opTuck
  repeat' split
  all_goals simp_all only [stepOk, StepR.toState, List.length_cons]
  all_goals omega

theorem opSize_bound (st : InterpreterState) (rest : List Nat) (pos : Nat) :
    stepOk st (opSize st rest pos) := by
  unfold opSize
  repeat' split
  all_goals simp_all only [stepOk, StepR.toState, List.length_cons]
  all_goals omega

theorem execStackMore_bound (st : InterpreterState) (op : Nat) (rest : List Nat)
    (pos : Nat) : stepOk st (execStackMore st op rest pos) := by
  unfold execStackMore
  repeat' split
  all_goals first
    | exact opDrop_bound _ _ _
    | exact opDup_bound _ _ _
    | exact opNip_bound _ _ _
    | exact opOver_bound _ _ _
    | exact opPick_bound _ _ _
    | exact opRoll_bound _ _ _
    | exact opRot_bound _ _ _
    | exact opSwap_bound _ _ _
    | exact opTuck_bound _ _ _
    | exact opSize_bound _ _ _
    | (simp only [stepOk, StepR.toState]; omega)

theorem execEqualRes_bound (st : InterpreterState) (op : Nat) (rest : List Nat)
    (pos : Nat) : stepOk st (execEqualRes st op rest pos) := by
  unfold execEqualRes
  repeat' split
  all_goals simp_all only [stepOk, StepR.toState, List.length_cons, List.length_nil,
    List.length_take, List.length_drop, List.length_append]
  all_goals omega

theorem execArithUnary_bound (st : InterpreterState) (op : Nat) (rest : List Nat)
    (pos : Nat) : stepOk st (execArithUnary st op rest pos) := by
  unfold execArithUnary
  repeat' split
  all_goals simp_all only [stepOk, StepR.toState, List.length_cons, List.length_nil,
    List.length_take, List.length_drop, List.length_append]
  all_goals omega

theorem execArithBinary_bound (st : InterpreterState) (op : Nat) (rest : List Nat)
    (pos : Nat) : stepOk st (execArithBinary st op rest pos) := by
  unfold execArithBinary
  repeat' split
  all_goals simp_all only [stepOk, StepR.toState, List.length_cons, List.length_nil,
    List.length_take, List.length_drop, List.length_append]
  all_goals omega

theorem execArithCompare_bound (st : InterpreterState) (op : Nat) (rest : List Nat)
    (pos : Nat) : stepOk st (execArithCompare st op rest pos) := by
  unfold execArithCompare
  repeat' split
  all_goals simp_all only [stepOk, StepR.toState, List.length_cons, List.length_nil,
    List.length_take, List.length_drop, List.length_append]
  all_goals omega

theorem execCrypto_bound (ctx : ScriptCtx) (st : InterpreterState) (op : Nat)
    (rest : List Nat) (pos : Nat) : stepOk st (execCrypto ctx st op rest pos) := by
  unfold execCrypto
  repeat' split
  all_goals simp_all only [stepOk, StepR.toState, List.length_cons, List.length_nil,
    List.length_take, List.length_drop, List.length_append]
  all_goals omega

theorem execMultiSig_bound (ctx : ScriptCtx) (st : InterpreterState) (op : Nat)
    (rest : List Nat) (pos : Nat) : stepOk st (execMultiSig ctx st op rest pos) := by
  unfold execMultiSig
  repeat' split
  all_goals simp_all only [stepOk, StepR.toState, List.length_cons, List.length_nil,
    List.length_take, List.length_drop, List.length_append, List.length_tail]
  all_goals omega

theorem execLockTime_bound (ctx : ScriptCtx) (st : InterpreterState) (op : Nat)
    (rest : List Nat) (pos : Nat) : stepOk st (execLockTime ctx st op rest pos) := by
  unfold execLockTime
  repeat' split
  all_goals simp_all only [stepOk, StepR.toState, List.length_cons, List.length_nil,
    List.length_take, List.length_drop, List.length_append]
  all_goals omega

theorem execOpConstants_bound (st : InterpreterState) (op : Nat) (rest : List Nat)
    (pos : Nat) : stepOk st (execOpConstants st op rest pos) := by
  unfold execOpConstants
  repeat' split
  all_goals first
    | exact execPushData_bound _ _ _ _
    | exact execEqualRes_bound _ _ _ _
    | (simp only [stepOk, StepR.toState, List.length_cons]; omega)

set_option maxHeartbeats 1000000 in
theorem execOp_bound (ctx : ScriptCtx) (st : InterpreterState) (op : Nat)
    (rest : List Nat) (pos : Nat) : stepOk st (execOp ctx st op rest pos) := by
  unfold execOp
  repeat' split
  all_goals first
    | exact execOpConstants_bound _ _ _ _
    | exact execFlow_bound _ _ _ _
    | exact execStackAlt_bound _ _ _ _
    | exact execStackMore_bound _ _ _ _
    | exact execEqualRes_bound _ _ _ _
    | exact execArithUnary_bound _ _ _ _
    | exact execArithBinary_bound _ _ _ _
    | exact execArithCompare_bound _ _ _ _
    | exact execCrypto_bound _ _ _ _ _
    | exact execMultiSig_bound _ _ _ _ _
    | exact execLockTime_bound _ _ _ _ _
    | (simp only [stepOk, StepR.toState, List.length_cons]; omega)

theorem runScript_bound (ctx : ScriptCtx) (fuel : Nat) :
    ∀ (st : InterpreterState) (script : List Nat) (pos : Nat),
    st.stack.length ≤ 1003 → st.ifStack.length ≤ 21 →
    (runScript ctx fuel st script pos).stack.length ≤ 1003 ∧
    (runScript ctx fuel st script pos).ifStack.length ≤ 21 := by
  induction fuel with
  | zero =>
    intro st script pos hs hi
    rw [runScript]
    exact ⟨hs, hi⟩
  | succ n ih =>
    intro st script pos hs hi
    match script with
    | [] =>
      rw [runScript]
      exact ⟨hs, hi⟩
    | op :: rest =>
      rw [runScript]
      split_ifs with h1 h2
      · exact ⟨hs, hi⟩
      · exact ⟨hs, hi⟩
      · have hb := execOp_bound ctx st op rest pos
        rcases hx : execOp ctx st op rest pos with st2 | ⟨st2, rest2, pos2⟩
        all_goals rw [hx] at hb
        all_goals simp only [stepOk, StepR.toState] at hb
        all_goals simp only [hx]
        · exact ⟨by omega, by omega⟩
        · exact ih st2 rest2 pos2 (by omega) (by omega)

theorem execOp_disabled (ctx : ScriptCtx) (st : InterpreterState) (d : Nat)
    (rest : List Nat) (pos : Nat) (hd : d ∈ disabledOps) :
    execOp ctx st d rest pos = .halt { st with valid := false } := by
  fin_cases hd <;> rfl

/-- A concrete evaluation context for witnesses: version-1 blocks, BIP-0112
inactive, trivial oracles. -/
def ctx0 : ScriptCtx :=
  ⟨1, 1, false, 0, 1, 0xffffffff, true,
   fun _ => [], fun _ => [], fun _ => [], fun _ => [], fun _ => [],
   fun _ _ _ => false⟩

/-- `n` copies of `OP_1 OP_IF`. -/
def ifLadder : Nat → List Nat
  | 0 => []
  | n + 1 => 0x51 :: 0x63 :: ifLadder n

/-- A state whose main stack already holds 1001 items. -/
def stBig : InterpreterState :=
  { initState with stack := List.replicate 1001 [] }

/-- C9: evaluating a script whose next opcode is one of the fifteen
disabled opcodes (CAT, SUBSTR, LEFT, RIGHT, INVERT, AND, OR, XOR, MUL,
DIV, MOD, LSHIFT, RSHIFT, 2MUL, 2DIV) marks the interpreter invalid and
stops evaluation — the rest of the script is never touched — for every
state, in particular inside conditional branches that are not being
executed (the disabled arms never consult the if-condition stack). -/
theorem claim_C9_disabled_halt (ctx : ScriptCtx) (fuel : Nat)
    (st : InterpreterState) (d : Nat) (rest : List Nat) (pos : Nat)
    (hd : d ∈ disabledOps) :
    runScript ctx (fuel + 1) st (d :: rest) pos = { st with valid := false } := by
  rw [runScript]
  split_ifs with h1 h2
  · rfl
  · rfl
  · rw [execOp_disabled ctx st d rest pos hd]

theorem claim_C9_witness :
    (0x8d ∈ disabledOps) ∧
      runScript ctx0 1 { initState with ifStack := [false] } [0x8d, 0x51] 0 =
        { initState with ifStack := [false], valid := false } :=
  ⟨by decide,
   claim_C9_disabled_halt ctx0 0 { initState with ifStack := [false] } 0x8d [0x51] 0
     (by decide)⟩

/-- C8 (amended): the interpreter enforces the stack limits at the top of
its loop, before each opcode: a state already over 1000 main-stack items
or 20 if-conditions is rejected as invalid on the spot.  Between two
checks a single opcode can add at most 3 main-stack items and 1
if-condition, so from any state within 1003/21 the evaluation stays within
1003/21 — the claimed bounds 1000/20 hold before each opcode, not at every
instant (see the counterexample). -/
theorem claim_C8_stack_limits (ctx : ScriptCtx) (fuel : Nat)
    (st : InterpreterState) (script : List Nat) (pos : Nat)
    (hs : st.stack.length ≤ 1003) (hi : st.ifStack.length ≤ 21) :
    ((runScript ctx fuel st script pos).stack.length ≤ 1003 ∧
      (runScript ctx fuel st script pos).ifStack.length ≤ 21) ∧
    ∀ op rest pos2, 1000 < st.stack.length ∨ 20 < st.ifStack.length →
      runScript ctx (fuel + 1) st (op :: rest) pos2 = { st with valid := false } := by
  refine ⟨runScript_bound ctx fuel st script pos hs hi, ?_⟩
  intro op rest pos2 hover
  rw [runScript]
  split_ifs with h1 h2
  · rfl
  · rfl
  · rcases hover with h | h
    · exact absurd h h1
    · exact absurd h h2

set_option maxRecDepth 10000 in
/-- C8 counterexample: 21 copies of `OP_1 OP_IF` finish with a 21-deep
if-condition stack and the script still valid — the limit is only checked
before each opcode, so the claimed invariant "never holds more than 20
items" is false at the end of this evaluation. -/
theorem claim_C8_counterexample :
    (scriptProcess ctx0 (ifLadder 21)).valid = true ∧
      20 < (scriptProcess ctx0 (ifLadder 21)).ifStack.length := by
  constructor
  · decide
  · decide

set_option maxRecDepth 10000 in
theorem claim_C8_witness :
    ((runScript ctx0 1 stBig [] 0).stack.length ≤ 1003 ∧
      (runScript ctx0 1 stBig [] 0).ifStack.length ≤ 21) ∧
    runScript ctx0 (1 + 1) stBig [0x61] 0 = { stBig with valid := false } := by
  have h := claim_C8_stack_limits ctx0 1 stBig [] 0
    (by simp [stBig, initState]) (by simp [stBig, initState])
  exact ⟨h.1, h.2 0x61 [] 0 (Or.inl (by simp [stBig, initState]))⟩

end BitcoinChain


